import Mathlib

/-!
# nanotimer-golang: a verification development for `src/lib/timer.go`

The program is a line-protocol subprocess: commands arrive on stdin, one per
line, and fired / cleared events are written to stdout.  This file embeds the
program in Lean and proves properties of the embedding.

Conventions of the embedding

* A Go `string` is a sequence of bytes: `GoString := List Byte`, a byte being a
  natural number (every theorem below holds for all lists, in particular for
  those whose entries are below 256).  `len(s)` is the number of bytes.
* `time.Duration` and `int64` values are integers; arithmetic that can overflow
  is reduced with `wrap64` (two's complement, 64 bit).
* An instant (`time.Time`) is the reading of the monotonic clock in
  nanoseconds, and `time.Since(t).Nanoseconds()` is the current reading minus
  `t` (two readings of the monotonic clock of one process differ by less than
  `2 ^ 63`, so `Time.Sub` does not saturate).  The clock is moved by the
  environment, with the action `Action.clock`.
* The two global maps are functions from keys to optional records.
* Go routines, runtime timers, tickers and channels are explicit components of
  the state; every atomic piece of a go routine is one `Action`, and a schedule
  is a list of actions.  A command of the main loop holds `timersMutex` from
  its first to its last statement; as an action of a schedule (`Action.line`)
  it runs with nothing in between.  The go routines write without the mutex:
  `clearTimeoutAmong` is the one command that writes, with steps of the runtime
  and of the go routines between its statements.
* All output goes through the one `bufio.Writer` of line 59, which has no lock
  of its own, to stdout.  `Output` holds the buffer and the error of the writer
  and stdout behind it; a call of `fmt.Fprintf` is one call of `Write`, and the
  `Flush` of a go routine is two actions (the write to stdout, then the update
  of the writer), so that a schedule can put the `Fprintf` of one go routine
  inside the `Flush` of another.  The errors `Fprintf` and `Flush` return are
  dropped, as in the source.  The entries of `out` are the chunks of bytes the
  writes to stdout have delivered.  Only stdout is modelled: the diagnostics
  written to stderr under `debug` change nothing in the state and are left out.
* `strings.Fields`, `strconv.ParseInt`, `bufio.Writer` and `bufio.Scanner` are
  library code; they are modelled here after their documentation and their
  source in the Go distribution.  A line of stdin is given by the bytes before
  its `\n`; `scanner.Text()` is that line without one trailing `\r`, and the
  scanner fails on a line of `MaxScanTokenSize` bytes or more.
* When `main` returns the process ends, with all its go routines: nothing
  happens in a state that is `exited`.
-/

namespace NanoTimer

/-! ## Strings -/

/-- A byte of a Go string. -/
abbrev Byte := Nat

/-- A Go string: its bytes. -/
abbrev GoString := List Byte

/-- The bytes (UTF-8) of a string literal of the source. -/
def str (s : String) : GoString :=
  (s.data.flatMap String.utf8EncodeChar).map UInt8.toNat

/-- The byte of an ASCII character literal of the source. -/
def chr (c : Char) : Byte := c.toNat

/-- Width in bytes of the white space rune (`unicode.IsSpace`) encoded at the
head of `s`; `0` when `s` does not start with one.  The runes are U+0009..U+000D,
U+0020, U+0085, U+00A0, U+1680, U+2000..U+200A, U+2028, U+2029, U+202F, U+205F
and U+3000. -/
def spaceWidth (s : GoString) : Nat :=
  match s with
  | [] => 0
  | b0 :: r0 =>
    if (0x09 ≤ b0 ∧ b0 ≤ 0x0D) ∨ b0 = 0x20 then 1
    else match r0 with
      | [] => 0
      | b1 :: r1 =>
        if b0 = 0xC2 ∧ (b1 = 0x85 ∨ b1 = 0xA0) then 2
        else match r1 with
          | [] => 0
          | b2 :: _ =>
            if b0 = 0xE1 ∧ b1 = 0x9A ∧ b2 = 0x80 then 3
            else if b0 = 0xE2 ∧ b1 = 0x80 ∧
                ((0x80 ≤ b2 ∧ b2 ≤ 0x8A) ∨ b2 = 0xA8 ∨ b2 = 0xA9 ∨ b2 = 0xAF) then 3
            else if b0 = 0xE2 ∧ b1 = 0x81 ∧ b2 = 0x9F then 3
            else if b0 = 0xE3 ∧ b1 = 0x80 ∧ b2 = 0x80 then 3
            else 0

/-- The token collected so far, as a list of zero or one fields. -/
def flushField (cur : GoString) : List GoString :=
  if cur = [] then [] else [cur]

/-- Scan of `strings.Fields`: `skip` counts the remaining bytes of a white
space rune that is being stepped over, `cur` is the field being collected. -/
def Fields.scan : GoString → Nat → GoString → List GoString
  | [], _, cur => flushField cur
  | _ :: rest, skip + 1, cur => Fields.scan rest skip cur
  | b :: rest, 0, cur =>
    match spaceWidth (b :: rest) with
    | 0 => Fields.scan rest 0 (cur ++ [b])
    | w + 1 => flushField cur ++ Fields.scan rest w []

/-- The library function `strings.Fields`: the maximal runs of bytes between
white space runes.  (A white space rune starts with a byte that is never a
continuation byte of UTF-8, so it is recognised at every position where its
encoding occurs.) -/
def Fields (s : GoString) : List GoString := Fields.scan s 0 []

/-! ## `strconv.ParseInt(s, 10, 64)` -/

/-- The two error kinds of `strconv`: `ErrSyntax` and `ErrRange`. -/
inductive NumErr where
  | ErrSyntax
  | ErrRange
  deriving DecidableEq, Repr

/-- The function `lower` of `strconv`: `c | ('x' - 'X')`. -/
def lower (c : Byte) : Byte := c ||| 0x20

/-- The digit loop of `strconv.ParseUint` for base 10 and bit size 64, `n`
being the value accumulated so far (a `uint64`): the digit `d` of the byte `c`,
then the checks `d >= base`, `n >= cutoff` and `n1 < n || n1 > maxVal`. -/
def ParseUint.loop : GoString → Nat → Nat × Option NumErr
  | [], n => (n, none)
  | c :: cs, n =>
    let digit : Option Byte :=
      if chr '0' ≤ c ∧ c ≤ chr '9' then some (c - chr '0')
      else if chr 'a' ≤ lower c ∧ lower c ≤ chr 'z' then some (lower c - chr 'a' + 10)
      else none
    match digit with
    | none => (0, some .ErrSyntax)
    | some d =>
      if d ≥ 10 then (0, some .ErrSyntax)
      else if n ≥ (2 ^ 64 - 1) / 10 + 1 then (2 ^ 64 - 1, some .ErrRange)
      else
        let n10 := n * 10 % 2 ^ 64
        let n1 := (n10 + d) % 2 ^ 64
        if n1 < n10 ∨ n1 > 2 ^ 64 - 1 then (2 ^ 64 - 1, some .ErrRange)
        else ParseUint.loop cs n1

/-- The library function `strconv.ParseUint(s, 10, 64)`: value and error kind. -/
def ParseUint (s : GoString) : Nat × Option NumErr :=
  if s = [] then (0, some .ErrSyntax) else ParseUint.loop s 0

/-- Reduction of an integer to the range of `int64` (two's complement). -/
def wrap64 (x : Int) : Int := (x + 2 ^ 63) % 2 ^ 64 - 2 ^ 63

/-- The library function `strconv.ParseInt(s, 10, 64)`: value and error kind. -/
def ParseInt (s : GoString) : Int × Option NumErr :=
  match s with
  | [] => (0, some .ErrSyntax)
  | c :: cs =>
    let neg := decide (c = chr '-')
    let s1 := if c = chr '+' then cs else if c = chr '-' then cs else c :: cs
    match ParseUint s1 with
    | (_, some .ErrSyntax) => (0, some .ErrSyntax)
    | (un, _) =>
      if !neg ∧ un ≥ 2 ^ 63 then (2 ^ 63 - 1, some .ErrRange)
      else if neg ∧ un > 2 ^ 63 then (-(2 ^ 63), some .ErrRange)
      else
        let n := wrap64 un
        (if neg then wrap64 (-n) else n, none)

/-! ## `parseDuration` (timer.go, lines 307-329) -/

/-- The errors `parseDuration` returns. -/
inductive Error where
  /-- The value `fmt.Errorf(msg)`. -/
  | errorf (msg : GoString)
  /-- The `*strconv.NumError` of `ParseInt` for the text `num`. -/
  | numError (num : GoString) (err : NumErr)
  deriving DecidableEq, Repr

/-- The constant `time.Nanosecond`. -/
def Nanosecond : Int := 1
/-- The constant `time.Microsecond`. -/
def Microsecond : Int := 1000 * Nanosecond
/-- The constant `time.Millisecond`. -/
def Millisecond : Int := 1000 * Microsecond
/-- The constant `time.Second`. -/
def Second : Int := 1000 * Millisecond

/-- Go's `parseDuration`: the duration in nanoseconds (an `int64`) and the error. -/
def parseDuration (s : GoString) : Int × Option Error :=
  if h : s.length < 2 then
    (0, some (.errorf (str "invalid duration")))
  else
    let unit := s[s.length - 1]
    let valueStr := s.take (s.length - 1)
    match ParseInt valueStr with
    | (_, some err) => (0, some (.numError valueStr err))
    | (value, none) =>
      if unit = chr 's' then (wrap64 (value * Second), none)
      else if unit = chr 'm' then (wrap64 (value * Millisecond), none)
      else if unit = chr 'u' then (wrap64 (value * Microsecond), none)
      else if unit = chr 'n' then (wrap64 (value * Nanosecond), none)
      else (0, some (.errorf (str "invalid duration unit")))

/-! ## The state of the process -/

/-- A finite map with string keys (a Go `map[string]*T`). -/
abbrev GoMap (α : Type) := GoString → Option α

/-- The assignment `m[k] = v`. -/
def GoMap.insert {α : Type} (m : GoMap α) (k : GoString) (v : α) : GoMap α :=
  fun j => if j = k then some v else m j

/-- The statement `delete(m, k)`. -/
def GoMap.delete {α : Type} (m : GoMap α) (k : GoString) : GoMap α :=
  fun j => if j = k then none else m j

/-- The struct `Timer`: the handle of the runtime timer and the start time. -/
structure Timer where
  timer : Nat
  startTime : Int
  deriving DecidableEq, Repr

/-- The struct `Interval`: the handle of the ticker (`none` is `nil`) and the
quit channel. -/
structure Interval where
  ticker : Option Nat
  quit : Nat
  deriving DecidableEq, Repr

/-- Where a runtime timer made by `time.AfterFunc` and its callback stand.
`armed`: waiting for the deadline; `stopped`: `Stop` came first; `fired`: the
runtime has started the callback; `measured w`: line 193 has run; `removed w`:
lines 194-196 have run; `printed`: line 198 has run; `settling n err`: the
`Flush` of line 199 has written to stdout, `n` bytes with the error `err`, and
has not yet updated the writer; `finished`: line 199 has run. -/
inductive Stage where
  | armed
  | stopped
  | fired
  | measured (waitTime : Int)
  | removed (waitTime : Int)
  | printed
  | settling (n : Nat) (err : Bool)
  | finished
  deriving DecidableEq, Repr

/-- A runtime timer made by `time.AfterFunc(duration, f)` at lines 192-200,
with the variables `timerID` and `startTime` its closure `f` captures. -/
structure AfterFunc where
  timerID : GoString
  startTime : Int
  duration : Int
  stage : Stage
  deriving DecidableEq, Repr

/-- A `time.Ticker`: its period, the instant of its next tick, whether `Stop`
was called, and whether a tick waits in its channel `C` (capacity 1). -/
structure Ticker where
  period : Int
  next : Int
  stopped : Bool
  pending : Bool
  deriving DecidableEq, Repr

/-- Where the go routine of an interval stands: at its `select`, between the
`select` and its `Fprintf`, between its `Fprintf` and its `Flush`, inside its
`Flush` (which has written to stdout, `n` bytes with the error `err`, and has
not yet updated the writer), or returned. -/
inductive Pc where
  | select
  | write
  | flush
  | settle (n : Nat) (err : Bool)
  | exited
  deriving DecidableEq, Repr

/-- A go routine started by `setInterval` (lines 248-262 with a ticker, lines
268-283 without), with its arguments. -/
structure Task where
  id : GoString
  ticker : Option Nat
  quit : Nat
  pc : Pc
  deriving DecidableEq, Repr

/-- The output side of the process: the `bufio.Writer` made at line 59, shared
by the command loop and all go routines, and stdout behind it.  `buf` holds the
bytes of the writer that are not yet written (`b.buf[0:b.n]`), `err` tells
whether a write to stdout has failed before (`b.err != nil`), `room` is the
number of bytes stdout still takes before a write to it fails (`none`: it takes
every write), and `out` holds the chunks of bytes the calls of
`os.Stdout.Write` have delivered, oldest first. -/
structure Output where
  buf : GoString
  err : Bool
  room : Option Nat
  out : List GoString
  deriving DecidableEq, Repr

/-- The state of the process.  `chans` holds for every channel made so far
whether it is closed; `panicked` records a run-time panic and `exited` that
`main` has returned. -/
structure State where
  clock : Int
  timers : GoMap Timer
  intervals : GoMap Interval
  afterFuncs : List AfterFunc
  tickers : List Ticker
  chans : List Bool
  tasks : List Task
  output : Output
  panicked : Bool
  exited : Bool

/-- The chunks of bytes delivered to stdout so far, oldest first. -/
abbrev State.out (s : State) : List GoString := s.output.out

/-- The state after `main` has made the two maps and the writer (lines 55-59),
with a stdout that takes every write. -/
def init : State :=
  { clock := 0, timers := fun _ => none, intervals := fun _ => none,
    afterFuncs := [], tickers := [], chans := [], tasks := [],
    output := ⟨[], false, none, []⟩, panicked := false, exited := false }

/-! ## Writing to stdout through the `bufio.Writer` -/

/-- The verb `%d` of an `int64`. -/
def fmtInt (i : Int) : GoString := str (toString i)

/-- The bytes `fmt.Fprintf` formats for `"timeout %s %d\n", timerID, waitTime`. -/
def fmtTimeout (timerID : GoString) (waitTime : Int) : GoString :=
  str "timeout " ++ timerID ++ str " " ++ fmtInt waitTime ++ str "\n"

/-- The bytes `fmt.Fprintf` formats for `"clearedTimeout %s %d\n", timerID,
waitTime`. -/
def fmtClearedTimeout (timerID : GoString) (waitTime : Int) : GoString :=
  str "clearedTimeout " ++ timerID ++ str " " ++ fmtInt waitTime ++ str "\n"

/-- The bytes `fmt.Fprintf` formats for `"interval %s\n", id`. -/
def fmtInterval (id : GoString) : GoString :=
  str "interval " ++ id ++ str "\n"

/-- The size of the buffer of `bufio.NewWriter`. -/
def defaultBufSize : Nat := 4096

/-- The call `os.Stdout.Write(p)`: the output side after it, the number of
bytes written and whether it returned an error.  Stdout takes the whole of `p`
when it has room for it; otherwise it takes the bytes it has room for and the
call fails. -/
def Output.stdoutWrite (p : GoString) (o : Output) : Output × Nat × Bool :=
  match o.room with
  | none => ({ o with out := o.out ++ [p] }, p.length, false)
  | some room =>
    if p.length ≤ room then
      ({ o with out := o.out ++ [p], room := some (room - p.length) }, p.length, false)
    else
      ({ o with
          out := if room = 0 then o.out else o.out ++ [p.take room]
          room := some 0 }, room, true)

/-- The second half of the method `Flush` of `bufio.Writer`, after its call of
`b.wr.Write(b.buf[0:b.n])` has written `n` bytes with the error `err`: when
there was an error, or fewer bytes were written than the buffer holds now
(`io.ErrShortWrite`), the bytes written are dropped from the buffer and the
error sticks; otherwise the buffer is emptied (`b.n = 0`). -/
def Output.flushSettle (n : Nat) (err : Bool) (o : Output) : Output :=
  if err || decide (n < o.buf.length) then
    { o with buf := o.buf.drop n, err := true }
  else { o with buf := [] }

/-- The method `Flush` of `bufio.Writer`, run with no other go routine in
between: nothing after an error or with an empty buffer; otherwise one write of
the buffered bytes to stdout, then `flushSettle`. -/
def Output.Flush (o : Output) : Output :=
  if o.err then o
  else if o.buf.length = 0 then o
  else
    let r := o.stdoutWrite o.buf
    r.1.flushSettle r.2.1 r.2.2

/-- The loop of the method `Write` of `bufio.Writer`, run while `p` is longer
than the room left in the buffer and no error has happened: with an empty
buffer `p` is written to stdout directly, otherwise the buffer is filled up
from `p` and flushed.  The result is what is left of `p`, and the output side. -/
def Output.writeLoop : Nat → GoString → Output → GoString × Output
  | 0, p, o => (p, o)
  | fuel + 1, p, o =>
    if p.length > defaultBufSize - o.buf.length ∧ o.err = false then
      if o.buf.length = 0 then
        let r := o.stdoutWrite p
        Output.writeLoop fuel (p.drop r.2.1) { r.1 with err := r.2.2 }
      else
        let n := min (defaultBufSize - o.buf.length) p.length
        Output.writeLoop fuel (p.drop n) ({ o with buf := o.buf ++ p.take n }).Flush
    else (p, o)

/-- The method `Write` of `bufio.Writer`: the loop (which ends within two
turns, see `writeLoop_done`), then, unless an error has happened, the rest of
`p` goes into the buffer. -/
def Output.Write (p : GoString) (o : Output) : Output :=
  let r := Output.writeLoop 2 p o
  if r.2.err then r.2 else { r.2 with buf := r.2.buf ++ r.1 }

/-- The call `fmt.Fprintf(writer, ...)` whose formatted bytes are `line`: one
call of `writer.Write`, whose error is dropped. -/
def Fprintf (line : GoString) (s : State) : State :=
  { s with output := s.output.Write line }

/-- The call `writer.Flush()`, whose error is dropped. -/
def Flush (s : State) : State :=
  { s with output := s.output.Flush }

/-! ## The four operations (timer.go, lines 175-304) -/

/-- Go's `setTimeout`. -/
def setTimeout (timerID : GoString) (duration : Int) (s : State) : State :=
  match s.timers timerID with
  | some _ => s
  | none =>
    let startTime := s.clock
    let timer := s.afterFuncs.length
    { s with
      afterFuncs := s.afterFuncs ++ [⟨timerID, startTime, duration, .armed⟩]
      timers := s.timers.insert timerID ⟨timer, startTime⟩ }

/-- The method `Stop` of the runtime timer `h`: it takes effect only while the
timer is armed. -/
def stopTimer (h : Nat) (s : State) : State :=
  match s.afterFuncs[h]? with
  | some rt =>
    if rt.stage = .armed then
      { s with afterFuncs := s.afterFuncs.set h { rt with stage := .stopped } }
    else s
  | none => s

/-- Go's `clearTimeout`. -/
def clearTimeout (timerID : GoString) (s : State) : State :=
  match s.timers timerID with
  | some timerStruct =>
    let s1 := stopTimer timerStruct.timer s
    let waitTime := s1.clock - timerStruct.startTime
    let s2 := Fprintf (fmtClearedTimeout timerID waitTime) s1
    let s3 := Flush s2
    { s3 with timers := s3.timers.delete timerID }
  | none => s

/-- Go's `setInterval`. -/
def setInterval (timerID : GoString) (duration : Int) (s : State) : State :=
  match s.intervals timerID with
  | some _ => s
  | none =>
    let quit := s.chans.length
    let s1 := { s with chans := s.chans ++ [false] }
    if duration > 0 then
      let ticker := s1.tickers.length
      { s1 with
        tickers := s1.tickers ++ [⟨duration, s1.clock + duration, false, false⟩]
        intervals := s1.intervals.insert timerID ⟨some ticker, quit⟩
        tasks := s1.tasks ++ [⟨timerID, some ticker, quit, .select⟩] }
    else
      { s1 with
        intervals := s1.intervals.insert timerID ⟨none, quit⟩
        tasks := s1.tasks ++ [⟨timerID, none, quit, .select⟩] }

/-- The method `Stop` of the ticker `tk`. -/
def stopTicker (tk : Nat) (s : State) : State :=
  match s.tickers[tk]? with
  | some t => { s with tickers := s.tickers.set tk { t with stopped := true } }
  | none => s

/-- The statement `close(ch)`: `none` is the panic on a channel that is
already closed. -/
def closeChan (ch : Nat) (s : State) : Option State :=
  match s.chans[ch]? with
  | some false => some { s with chans := s.chans.set ch true }
  | _ => none

/-- Go's `clearInterval`. -/
def clearInterval (timerID : GoString) (s : State) : State :=
  match s.intervals timerID with
  | some interval =>
    let s1 := match interval.ticker with
      | some tk => stopTicker tk s
      | none => s
    match closeChan interval.quit s1 with
    | some s2 => { s2 with intervals := s2.intervals.delete timerID }
    | none => { s1 with panicked := true }
  | none => s

/-! ## The command loop (timer.go, lines 68-131) -/

/-- The body of the loop `for scanner.Scan()` of `main` for the line
`scanner.Text()`. -/
def mainStep (line : GoString) (s : State) : State :=
  match Fields line with
  | [] => s
  | [_] => s
  | cmd :: timerID :: args =>
    if cmd = str "setTimeout" then
      match args with
      | [] => s
      | a :: _ =>
        match parseDuration a with
        | (_, some _) => s
        | (duration, none) => setTimeout timerID duration s
    else if cmd = str "clearTimeout" then
      clearTimeout timerID s
    else if cmd = str "setInterval" then
      match args with
      | [] => s
      | a :: _ =>
        match parseDuration a with
        | (_, some _) => s
        | (duration, none) => setInterval timerID duration s
    else if cmd = str "clearInterval" then
      clearInterval timerID s
    else s

/-- The constant `bufio.MaxScanTokenSize`, the size the buffer of the scanner
made at line 62 can grow to. -/
def MaxScanTokenSize : Nat := 64 * 1024

/-- The function `dropCR` of `bufio.ScanLines`: one trailing `\r` is dropped. -/
def dropCR (data : GoString) : GoString :=
  if data.getLast? = some (chr '\r') then data.dropLast else data

/-- One turn of the loop `for scanner.Scan()` when the next line of stdin is
`raw` (the bytes before its `\n`).  A line that does not fit in the buffer of
the scanner makes `Scan` fail with `ErrTooLong`: the loop ends and `main`
returns (lines 133-138), which ends the process. -/
def readLine (raw : GoString) (s : State) : State :=
  if raw.length ≥ MaxScanTokenSize then { s with exited := true }
  else mainStep (dropCR raw) s

/-- Go's `main` from the loop on, on the lines of stdin (each the bytes before
its `\n`), when no go routine and no timer runs in between: it returns at the
end of stdin and after a line that is too long, and the process dies at a
panic. -/
def main (lines : List GoString) (s : State) : State :=
  if s.panicked then s
  else if s.exited then s
  else match lines with
    | [] => { s with exited := true }
    | raw :: rest => main rest (readLine raw s)

/-! ## The go routines and the runtime, one atomic piece at a time -/

/-- The runtime finds the deadline of the armed timer `h` passed and starts its
callback in a go routine of its own; from here on `Stop` has no effect. -/
def expire (h : Nat) (s : State) : State :=
  match s.afterFuncs[h]? with
  | some rt =>
    if rt.stage = .armed ∧ rt.startTime + max rt.duration 0 ≤ s.clock then
      { s with afterFuncs := s.afterFuncs.set h { rt with stage := .fired } }
    else s
  | none => s

/-- Line 193 of the callback: `waitTime := time.Since(startTime).Nanoseconds()`. -/
def callbackSince (h : Nat) (s : State) : State :=
  match s.afterFuncs[h]? with
  | some rt =>
    if rt.stage = .fired then
      { s with afterFuncs :=
          s.afterFuncs.set h { rt with stage := .measured (s.clock - rt.startTime) } }
    else s
  | none => s

/-- Lines 194-196 of the callback: `delete(timers, timerID)` under the lock. -/
def callbackDelete (h : Nat) (s : State) : State :=
  match s.afterFuncs[h]? with
  | some rt =>
    match rt.stage with
    | .measured waitTime =>
      { s with
        timers := s.timers.delete rt.timerID
        afterFuncs := s.afterFuncs.set h { rt with stage := .removed waitTime } }
    | _ => s
  | none => s

/-- Line 198 of the callback, after the lock is released: the `Fprintf` of the
line `timeout <id> <waitTime>`. -/
def callbackFprintf (h : Nat) (s : State) : State :=
  match s.afterFuncs[h]? with
  | some rt =>
    match rt.stage with
    | .removed waitTime =>
      let s1 := Fprintf (fmtTimeout rt.timerID waitTime) s
      { s1 with afterFuncs := s1.afterFuncs.set h { rt with stage := .printed } }
    | _ => s
  | none => s

/-- Line 199 of the callback, first half of `writer.Flush()`: it returns at
once after an error or with an empty buffer, otherwise it writes the buffered
bytes to stdout. -/
def callbackFlush (h : Nat) (s : State) : State :=
  match s.afterFuncs[h]? with
  | some rt =>
    if rt.stage = .printed then
      if s.output.err = true ∨ s.output.buf.length = 0 then
        { s with afterFuncs := s.afterFuncs.set h { rt with stage := .finished } }
      else
        let r := s.output.stdoutWrite s.output.buf
        { s with
          output := r.1
          afterFuncs := s.afterFuncs.set h { rt with stage := .settling r.2.1 r.2.2 } }
    else s
  | none => s

/-- Line 199 of the callback, second half of `writer.Flush()`: the writer is
updated after the write to stdout. -/
def callbackSettle (h : Nat) (s : State) : State :=
  match s.afterFuncs[h]? with
  | some rt =>
    match rt.stage with
    | .settling n err =>
      { s with
        output := s.output.flushSettle n err
        afterFuncs := s.afterFuncs.set h { rt with stage := .finished } }
    | _ => s
  | none => s

/-- The runtime sends a tick of the ticker `tk` that is due; the tick is
dropped when one already waits in the channel. -/
def tickerSend (tk : Nat) (s : State) : State :=
  match s.tickers[tk]? with
  | some t =>
    if t.stopped = false ∧ t.next ≤ s.clock then
      { s with tickers :=
          s.tickers.set tk { t with next := t.next + t.period, pending := true } }
    else s
  | none => s

/-- The `select` of the go routine `k` takes `case <-ticker.C` (line 251). -/
def taskTick (k : Nat) (s : State) : State :=
  match s.tasks[k]? with
  | some task =>
    match task.ticker with
    | some tk =>
      match s.tickers[tk]? with
      | some t =>
        if task.pc = .select ∧ t.pending = true then
          { s with
            tickers := s.tickers.set tk { t with pending := false }
            tasks := s.tasks.set k { task with pc := .write } }
        else s
      | none => s
    | none => s
  | none => s

/-- The `select` of the go routine `k` takes `case <-quit` (lines 255, 271):
the go routine returns. -/
def taskQuit (k : Nat) (s : State) : State :=
  match s.tasks[k]? with
  | some task =>
    if task.pc = .select ∧ s.chans[task.quit]? = some true then
      { s with tasks := s.tasks.set k { task with pc := .exited } }
    else s
  | none => s

/-- The `select` of the go routine `k` of a zero-duration interval takes
`default` (line 276), which it does only while `quit` is not closed. -/
def taskDefault (k : Nat) (s : State) : State :=
  match s.tasks[k]? with
  | some task =>
    if task.pc = .select ∧ task.ticker = none ∧ s.chans[task.quit]? = some false then
      { s with tasks := s.tasks.set k { task with pc := .write } }
    else s
  | none => s

/-- The go routine `k` runs its `Fprintf` of the line `interval <id>` (lines
253 and 278); it holds no lock. -/
def taskFprintf (k : Nat) (s : State) : State :=
  match s.tasks[k]? with
  | some task =>
    if task.pc = .write then
      let s1 := Fprintf (fmtInterval task.id) s
      { s1 with tasks := s1.tasks.set k { task with pc := .flush } }
    else s
  | none => s

/-- The go routine `k` runs the first half of `writer.Flush()` (lines 254 and
279): it returns at once after an error or with an empty buffer, and the go
routine goes back to its `select`; otherwise it writes the buffered bytes to
stdout. -/
def taskFlush (k : Nat) (s : State) : State :=
  match s.tasks[k]? with
  | some task =>
    if task.pc = .flush then
      if s.output.err = true ∨ s.output.buf.length = 0 then
        { s with tasks := s.tasks.set k { task with pc := .select } }
      else
        let r := s.output.stdoutWrite s.output.buf
        { s with
          output := r.1
          tasks := s.tasks.set k { task with pc := .settle r.2.1 r.2.2 } }
    else s
  | none => s

/-- The go routine `k` runs the second half of `writer.Flush()`: the writer is
updated after the write to stdout; then (after `runtime.Gosched()` at line 280)
the go routine goes back to its `select`. -/
def taskSettle (k : Nat) (s : State) : State :=
  match s.tasks[k]? with
  | some task =>
    match task.pc with
    | .settle n err =>
      { s with
        output := s.output.flushSettle n err
        tasks := s.tasks.set k { task with pc := .select } }
    | _ => s
  | none => s

/-- One atomic step of the process or of its environment. -/
inductive Action where
  /-- The monotonic clock reads `t` from now on. -/
  | clock (t : Int)
  /-- From now on stdout has room for `room` more bytes (`none`: for all). -/
  | stdout (room : Option Nat)
  /-- The command loop reads the line `raw` of stdin and handles it. -/
  | line (raw : GoString)
  /-- The command loop finds stdin at its end: `main` returns. -/
  | eof
  | expire (h : Nat)
  | callbackSince (h : Nat)
  | callbackDelete (h : Nat)
  | callbackFprintf (h : Nat)
  | callbackFlush (h : Nat)
  | callbackSettle (h : Nat)
  | tickerSend (tk : Nat)
  | taskTick (k : Nat)
  | taskQuit (k : Nat)
  | taskDefault (k : Nat)
  | taskFprintf (k : Nat)
  | taskFlush (k : Nat)
  | taskSettle (k : Nat)
  deriving DecidableEq, Repr

/-- The effect of one action; nothing happens after a panic or after `main`
has returned. -/
def step (a : Action) (s : State) : State :=
  if s.panicked then s
  else if s.exited then s
  else match a with
    | .clock t => { s with clock := t }
    | .stdout room => { s with output := { s.output with room := room } }
    | .line raw => readLine raw s
    | .eof => { s with exited := true }
    | .expire h => expire h s
    | .callbackSince h => callbackSince h s
    | .callbackDelete h => callbackDelete h s
    | .callbackFprintf h => callbackFprintf h s
    | .callbackFlush h => callbackFlush h s
    | .callbackSettle h => callbackSettle h s
    | .tickerSend tk => tickerSend tk s
    | .taskTick k => taskTick k s
    | .taskQuit k => taskQuit k s
    | .taskDefault k => taskDefault k s
    | .taskFprintf k => taskFprintf k s
    | .taskFlush k => taskFlush k s
    | .taskSettle k => taskSettle k s

/-- The effect of a schedule: its actions one after the other. -/
def run (as : List Action) (s : State) : State :=
  as.foldl (fun st a => step a st) s

/-- The clock never goes back along the schedule, `c` being its reading at the
start. -/
def clockMonotone (c : Int) : List Action → Bool
  | [] => true
  | .clock t :: as => decide (c ≤ t) && clockMonotone t as
  | _ :: as => clockMonotone c as

/-! ## A command among the go routines -/

/-- The actions that need neither `timersMutex` nor the writer nor stdout: the
clock, the runtime (timers and tickers), and the `select` and the `time.Since`
of the go routines. -/
def Action.quiet : Action → Bool
  | .clock _ => true
  | .expire _ => true
  | .callbackSince _ => true
  | .tickerSend _ => true
  | .taskTick _ => true
  | .taskQuit _ => true
  | .taskDefault _ => true
  | _ => false

/-- A step that uses neither the lock nor the writer and is not a step of the
go routine `k`. -/
def Action.besideTask (k : Nat) (a : Action) : Bool :=
  a.quiet && decide (a ≠ .taskTick k) && decide (a ≠ .taskQuit k) &&
    decide (a ≠ .taskDefault k)

/-- The call `writer.Flush()` of a command while the actions `as` run between
its write to stdout and its update of the writer. -/
def flushAmong (as : List Action) (s : State) : State :=
  if s.output.err = true ∨ s.output.buf.length = 0 then s
  else
    let r := s.output.stdoutWrite s.output.buf
    let s1 := run as { s with output := r.1 }
    { s1 with output := s1.output.flushSettle r.2.1 r.2.2 }

/-- Go's `clearTimeout` (lines 205-222) while the runtime and the go routines
take steps: `a0` between the lookup of line 209 and `Stop`, `a1` between `Stop`
and `time.Since`, `a2` between `time.Since` and `Fprintf`, `a3` between
`Fprintf` and `Flush`, `a4` inside `Flush`, `a5` between `Flush` and `delete`.
The command holds `timersMutex` throughout, so no action that needs it (a
command, `callbackDelete`) can stand in the lists; the go routines need no lock
to write.  With empty lists it is `clearTimeout`. -/
def clearTimeoutAmong (timerID : GoString) (a0 a1 a2 a3 a4 a5 : List Action) (s : State) :
    State :=
  match s.timers timerID with
  | some timerStruct =>
    let s1 := run a1 (stopTimer timerStruct.timer (run a0 s))
    let waitTime := s1.clock - timerStruct.startTime
    let s2 := Fprintf (fmtClearedTimeout timerID waitTime) (run a2 s1)
    let s3 := run a5 (flushAmong a4 (run a3 s2))
    { s3 with timers := s3.timers.delete timerID }
  | none => s

/-! ## Predicates, schedules and example states used by the theorems -/

/-- The list `l2` keeps every runtime timer of `l1`, with the variables its
closure captured. -/
abbrev KeepsClosures (l1 l2 : List AfterFunc) : Prop :=
  ∀ (h : Nat) (rt : AfterFunc), l1[h]? = some rt →
    ∃ rt2 : AfterFunc, l2[h]? = some rt2 ∧ rt2.timerID = rt.timerID ∧ rt2.startTime = rt.startTime

/-- What every step of the process keeps true. -/
structure Inv (s : State) : Prop where
  /-- No panic has happened. -/
  noPanic : s.panicked = false
  /-- The record of a timeout names a runtime timer whose closure captured the
  key and the start time of the record. -/
  closure : ∀ id rec, s.timers id = some rec →
    ∃ rt : AfterFunc, s.afterFuncs[rec.timer]? = some rt ∧ rt.timerID = id ∧
      rt.startTime = rec.startTime
  /-- The quit channel of a record of the interval map is not closed. -/
  quitOpen : ∀ id iv, s.intervals id = some iv → s.chans[iv.quit]? = some false
  /-- Two records of the interval map do not share their quit channel. -/
  quitInj : ∀ i j a b, s.intervals i = some a → s.intervals j = some b →
    a.quit = b.quit → i = j
  /-- The ticker of a record of the interval map exists. -/
  tickerValid : ∀ id iv tk, s.intervals id = some iv → iv.ticker = some tk →
    tk < s.tickers.length

/-- The writer is idle and sound, and stdout takes `n` more bytes: no write has
failed, no byte waits in the buffer, and stdout has room for `n` bytes. -/
def Output.Ready (o : Output) (n : Nat) : Prop :=
  o.err = false ∧ o.buf = [] ∧
  match o.room with
  | none => True
  | some room => n ≤ room

instance (o : Output) (n : Nat) : Decidable (o.Ready n) := by
  unfold Output.Ready
  cases o.room <;> infer_instance

/-- The step from `s` to `s2` leaves the output side and the two maps as they
were, and every runtime timer that was stopped stays as it was. -/
def QuietFrame (s s2 : State) : Prop :=
  s2.output = s.output ∧ s2.timers = s.timers ∧ s2.intervals = s.intervals ∧
  ∀ (h : Nat) (rt : AfterFunc), s.afterFuncs[h]? = some rt → rt.stage = .stopped →
    s2.afterFuncs[h]? = some rt

/-- What is seen of the state `t` during the firing of the runtime timer `h`,
whose record was `rt` in the state `s` the firing started from: the output
side is `o`, the timeout map is `tm`, the interval map is that of `s`, no
runtime timer was made since, the process runs, and the timer `h` stands at the
stage `st`. -/
def FiringView (h : Nat) (rt : AfterFunc) (s t : State) (tm : GoMap Timer) (o : Output)
    (st : Stage) : Prop :=
  t.output = o ∧ t.timers = tm ∧ t.intervals = s.intervals ∧
  t.afterFuncs.length = s.afterFuncs.length ∧ t.panicked = false ∧ t.exited = false ∧
  t.afterFuncs[h]? = some { rt with stage := st }

/-- What is seen of the state `t` while the zero-duration go routine `k` of
the interval `c`, whose quit channel is `q`, runs: the output side is `o`, the
go routine stands at `pc`, the channel `q` is closed or not, the interval map
has `iv` for `c`, and the process runs. -/
def TaskView (k q : Nat) (t : State) (o : Output) (pc : Pc) (closed : Bool)
    (iv : Option Interval) : Prop :=
  t.output = o ∧ t.tasks[k]? = some ⟨str "c", none, q, pc⟩ ∧ t.chans[q]? = some closed ∧
  t.intervals (str "c") = iv ∧ t.panicked = false ∧ t.exited = false

/-- Every record of the timeout map was made at or before the present reading
of the clock. -/
def StartBeforeClock (s : State) : Prop :=
  ∀ (id : GoString) (rec : Timer), s.timers id = some rec → rec.startTime ≤ s.clock

/-- The step from `s` to `s2` leaves the clock alone and every timeout record of
`s2` is one of `s` or was made at the present reading of the clock. -/
def TimersFrom (s s2 : State) : Prop :=
  s2.clock = s.clock ∧
  ∀ (id : GoString) (rec : Timer), s2.timers id = some rec →
    s.timers id = some rec ∨ rec.startTime = s.clock

/-- The scale of a unit byte in nanoseconds, as the specification gives it:
`s` 1000000000, `m` 1000000, `u` 1000, `n` 1 (and 0 for any other byte). -/
def unitScale (u : Byte) : Int :=
  if u = chr 's' then 1000000000
  else if u = chr 'm' then 1000000
  else if u = chr 'u' then 1000
  else if u = chr 'n' then 1
  else 0

/-- The four unit bytes `s`, `m`, `u`, `n`. -/
def unitBytes : List Byte := [chr 's', chr 'm', chr 'u', chr 'n']

/-- The states the process can be in: those a schedule leads to from `init`. -/
def Reachable (s : State) : Prop := ∃ as : List Action, run as init = s

/-- The states a schedule along which the clock never goes back leads to. -/
def MonotoneReachable (s : State) : Prop :=
  ∃ as : List Action, clockMonotone init.clock as = true ∧ run as init = s

/-- The four command names of the protocol. -/
def commandNames : List GoString :=
  [str "setTimeout", str "clearTimeout", str "setInterval", str "clearInterval"]

/-- A malformed line, in the words of the specification: fewer than two fields,
or a first field that is no command name, or a `setTimeout` / `setInterval`
line that has fewer than three fields or whose third field `parseDuration`
rejects. -/
def Malformed (line : GoString) : Prop :=
  (Fields line).length < 2 ∨
  (∀ c ∈ commandNames, (Fields line)[0]? ≠ some c) ∨
  (((Fields line)[0]? = some (str "setTimeout") ∨
      (Fields line)[0]? = some (str "setInterval")) ∧
    ((Fields line).length < 3 ∨
      ((Fields line)[2]?.map fun a => (parseDuration a).2.isSome) = some true))

instance (line : GoString) : Decidable (Malformed line) := by
  unfold Malformed
  infer_instance

/-- A schedule on which a timeout fires and is cleared at the same time: the
runtime starts the callback of the timeout `a`, `clearTimeout a` takes the lock
first, then the callback runs. -/
def raceSchedule : List Action :=
  [.line (str "setTimeout a 10n"), .clock 10, .expire 0, .clock 11,
   .line (str "clearTimeout a"), .clock 12,
   .callbackSince 0, .callbackDelete 0, .callbackFprintf 0, .callbackFlush 0,
   .callbackSettle 0]

/-- The schedule `raceSchedule` with a second `setTimeout a` between the clear
and the run of the callback of the first one. -/
def staleSchedule : List Action :=
  [.line (str "setTimeout a 10n"), .clock 10, .expire 0, .clock 11,
   .line (str "clearTimeout a"), .clock 12, .line (str "setTimeout a 1s"), .clock 13,
   .callbackSince 0, .callbackDelete 0, .callbackFprintf 0, .callbackFlush 0,
   .callbackSettle 0]

/-- The state after `setTimeout a 10n` was accepted at instant 0 and the clock
has moved on to 10: the timeout `a` is scheduled and due. -/
def scheduledState : State :=
  run [.line (str "setTimeout a 10n"), .clock 10] init

/-- The state after `setInterval b 50m` was accepted: the interval `b` is
active and has a ticker. -/
def activeState : State :=
  run [.line (str "setInterval b 50m")] init

/-- The state `scheduledState` with a stdout that takes no byte (it is closed,
or the file it leads to is full): the timeout `a` is scheduled and due. -/
def deafStdoutState : State :=
  run [.stdout (some 0), .line (str "setTimeout a 10n"), .clock 10] init

/-- One turn of the loop of the zero-duration go routine `k` among other
steps: those of `b.1` before its `select` takes `default`, of `b.2.1` before its
`Fprintf`, of `b.2.2.1` before its `Flush` and of `b.2.2.2` inside its
`Flush`. -/
def turnAmong (k : Nat) (b : List Action × List Action × List Action × List Action) :
    List Action :=
  b.1 ++ [.taskDefault k] ++ b.2.1 ++ [.taskFprintf k] ++ b.2.2.1 ++ [.taskFlush k]
    ++ b.2.2.2 ++ [.taskSettle k]

/-- The turns of the loop of the go routine `k` one after the other, each among
the steps its entry of `bs` gives. -/
def turnsAmong (k : Nat) :
    List (List Action × List Action × List Action × List Action) → List Action
  | [] => []
  | b :: bs => turnAmong k b ++ turnsAmong k bs

/-- One more turn of the loop of the go routine `k` among the steps `b0` to
`b3`, during which the line `clearInterval c` is read when the go routine has
run `j` of the four pieces of the turn; then the steps `c`, then the `select`
of the go routine takes `quit`. -/
def clearAmong (k j : Nat) (b0 b1 b2 b3 c : List Action) : List Action :=
  match j with
  | 0 =>
    [.line (str "clearInterval c")] ++ b0 ++ [.taskDefault k] ++ b1 ++ [.taskFprintf k] ++ b2
      ++ [.taskFlush k] ++ b3 ++ [.taskSettle k] ++ c ++ [.taskQuit k]
  | 1 =>
    b0 ++ [.taskDefault k] ++ [.line (str "clearInterval c")] ++ b1 ++ [.taskFprintf k] ++ b2
      ++ [.taskFlush k] ++ b3 ++ [.taskSettle k] ++ c ++ [.taskQuit k]
  | 2 =>
    b0 ++ [.taskDefault k] ++ b1 ++ [.taskFprintf k] ++ [.line (str "clearInterval c")] ++ b2
      ++ [.taskFlush k] ++ b3 ++ [.taskSettle k] ++ c ++ [.taskQuit k]
  | _ =>
    b0 ++ [.taskDefault k] ++ b1 ++ [.taskFprintf k] ++ b2 ++ [.taskFlush k]
      ++ [.line (str "clearInterval c")] ++ b3 ++ [.taskSettle k] ++ c ++ [.taskQuit k]

/-- A line of `MaxScanTokenSize` blanks. -/
def longLine : GoString := List.replicate MaxScanTokenSize (chr ' ')

/-- The natural firing of the runtime timer 0, run to its end with nothing in
between but the clock. -/
def firing : List Action :=
  [.expire 0, .clock 12, .callbackSince 0, .clock 13, .callbackDelete 0, .clock 14,
   .callbackFprintf 0, .callbackFlush 0, .callbackSettle 0]

/-- The natural firing of the runtime timer `h` up to the `delete` of its
callback, among other steps: `a0` before the runtime starts the callback, `a1`
before line 193, `a2` before lines 194-196. -/
def firingToDelete (h : Nat) (a0 a1 a2 : List Action) : List Action :=
  a0 ++ [.expire h] ++ a1 ++ [.callbackSince h] ++ a2 ++ [.callbackDelete h]

/-- The natural firing of the runtime timer `h` to the end of its callback,
among other steps: those of `firingToDelete`, then `a3` before the `Fprintf` of
line 198, `a4` before the `Flush` of line 199 and `a5` inside it. -/
def firingAmong (h : Nat) (a0 a1 a2 a3 a4 a5 : List Action) : List Action :=
  firingToDelete h a0 a1 a2 ++ a3 ++ [.callbackFprintf h] ++ a4 ++ [.callbackFlush h]
    ++ a5 ++ [.callbackSettle h]

/-- A schedule with a stdout that takes every write on which the line of a
firing timeout is lost: the go routine of the interval `c` is inside its
`Flush` when the callback of the timeout `a` calls `Fprintf`; the `Flush` finds
more bytes in the buffer than it has written, takes that for a short write and
leaves the writer in error. -/
def sharedWriterSchedule : List Action :=
  [.line (str "setInterval c 0n"), .line (str "setTimeout a 10n"), .clock 10,
   .expire 0, .clock 12, .callbackSince 0, .callbackDelete 0,
   .taskDefault 0, .taskFprintf 0, .taskFlush 0,
   .callbackFprintf 0,
   .taskSettle 0,
   .callbackFlush 0, .callbackSettle 0]

/-- A schedule with a stdout that takes every write that leaves the writer in
error while the timeout `a` is scheduled: the go routine of the interval `d`
calls `Fprintf` while the go routine of the interval `c` is inside its
`Flush`. -/
def brokenWriterSchedule : List Action :=
  [.line (str "setInterval c 0n"), .line (str "setInterval d 0n"),
   .line (str "setTimeout a 10n"), .clock 10,
   .taskDefault 0, .taskFprintf 0, .taskFlush 0,
   .taskDefault 1, .taskFprintf 1,
   .taskSettle 0]

/-- The state after `setInterval c 0n` and `setTimeout a 10n` were accepted at
instant 0 and the clock has moved on to 10: nothing has been written, the go
routine of the interval `c` is at its `select`, the timeout `a` is scheduled. -/
def besideIntervalState : State :=
  run [.line (str "setInterval c 0n"), .line (str "setTimeout a 10n"), .clock 10] init

set_option maxRecDepth 100000

/-! ## The writer -/

theorem stdoutWrite_err (p : GoString) (o : Output) :
    (o.stdoutWrite p).2.2 = true ∨
      ((o.stdoutWrite p).2.1 = p.length ∧ (o.stdoutWrite p).1.buf = o.buf) := by
  unfold Output.stdoutWrite
  split
  · exact Or.inr ⟨rfl, rfl⟩
  · split
    · exact Or.inr ⟨rfl, rfl⟩
    · exact Or.inl rfl

theorem flush_err_or_empty (o : Output) (he : o.err = false) :
    o.Flush.err = true ∨ o.Flush.buf.length = 0 := by
  unfold Output.Flush
  rw [he]
  simp only [Bool.false_eq_true, if_false]
  split
  · rename_i hz
    exact Or.inr hz
  · unfold Output.flushSettle
    split
    · exact Or.inl rfl
    · exact Or.inr rfl

theorem writeLoop_one_done (q : GoString) (o : Output)
    (ho : o.err = true ∨ o.buf.length = 0) :
    ¬ ((Output.writeLoop 1 q o).1.length
          > defaultBufSize - (Output.writeLoop 1 q o).2.buf.length ∧
        (Output.writeLoop 1 q o).2.err = false) := by
  unfold Output.writeLoop
  split
  · rename_i hc
    rcases ho with ho | ho
    · rw [ho] at hc
      exact absurd hc.2 (by simp)
    · rw [if_pos ho]
      simp only [Output.writeLoop]
      rcases stdoutWrite_err q o with h | ⟨h1, h2⟩
      · simp [h]
      · simp [h1, h2, ho]
  · assumption

/-- The loop of `Write` has come to its end after two turns: what is left of
`p` fits in the buffer, or an error has happened. -/
theorem writeLoop_done (p : GoString) (o : Output) :
    ¬ ((Output.writeLoop 2 p o).1.length
          > defaultBufSize - (Output.writeLoop 2 p o).2.buf.length ∧
        (Output.writeLoop 2 p o).2.err = false) := by
  unfold Output.writeLoop
  split
  · rename_i hc
    split
    · rename_i hb
      refine writeLoop_one_done _ _ ?_
      rcases stdoutWrite_err p o with h | ⟨_, h2⟩
      · exact Or.inl h
      · exact Or.inr (by simp [h2, hb])
    · exact writeLoop_one_done _ _ (flush_err_or_empty _ hc.2)
  · assumption

/-- With an idle and sound writer and room on stdout, `Write` of a line
followed by `Flush` delivers the line to stdout as one chunk and leaves the
writer idle and sound. -/
theorem flush_write_ready (p : GoString) (o : Output) (hp : p ≠ [])
    (hw : o.Ready p.length) :
    (o.Write p).Flush =
      { buf := [], err := false, room := o.room.map (fun room => room - p.length),
        out := o.out ++ [p] } := by
  obtain ⟨buf, err, room, out⟩ := o
  obtain ⟨he, hb, hr⟩ := hw
  simp only at he hb hr
  subst he hb
  have hlen : p.length ≠ 0 := by
    intro h
    exact hp (List.length_eq_zero.1 h)
  by_cases hbig : p.length > defaultBufSize
  · cases room with
    | none =>
      simp [Output.Write, Output.writeLoop, Output.Flush, Output.flushSettle,
        Output.stdoutWrite, hbig]
    | some room =>
      simp only at hr
      simp [Output.Write, Output.writeLoop, Output.Flush, Output.flushSettle,
        Output.stdoutWrite, hbig, hr]
  · cases room with
    | none =>
      simp [Output.Write, Output.writeLoop, Output.Flush, Output.flushSettle,
        Output.stdoutWrite, hbig, hlen, hp]
    | some room =>
      simp only at hr
      simp [Output.Write, Output.writeLoop, Output.Flush, Output.flushSettle,
        Output.stdoutWrite, hbig, hr, hlen, hp]

/-- After a write to stdout has failed, `Write` and `Flush` change nothing. -/
theorem write_flush_of_err (p : GoString) (o : Output) (he : o.err = true) :
    o.Write p = o ∧ o.Flush = o := by
  simp [Output.Write, Output.writeLoop, Output.Flush, he]

theorem str_ne_nil_of_newline (a : GoString) : a ++ str "\n" ≠ [] := by
  have h : str "\n" = [10] := by decide
  rw [h]
  simp

/-- The two halves of `Flush`, one right after the other, make `Flush`. -/
theorem flush_halves (o : Output) (he : ¬ (o.err = true ∨ o.buf.length = 0)) :
    (o.stdoutWrite o.buf).1.flushSettle (o.stdoutWrite o.buf).2.1 (o.stdoutWrite o.buf).2.2
      = o.Flush := by
  have h1 : o.err = false := by
    cases h : o.err with
    | false => rfl
    | true => exact absurd (Or.inl h) he
  have h2 : ¬ o.buf.length = 0 := fun h => he (Or.inr h)
  simp [Output.Flush, h1, h2]

theorem flush_of_idle (o : Output) (he : o.err = true ∨ o.buf.length = 0) : o.Flush = o := by
  unfold Output.Flush
  rcases he with he | he
  · simp [he]
  · simp [he]

/-! ## Invariants of the reachable states -/

theorem keepsClosures_refl (l : List AfterFunc) : KeepsClosures l l :=
  fun _ rt h => ⟨rt, h, rfl, rfl⟩

theorem keepsClosures_append (l : List AfterFunc) (x : AfterFunc) :
    KeepsClosures l (l ++ [x]) := by
  intro h rt hrt
  obtain ⟨hl, _⟩ := List.getElem?_eq_some.1 hrt
  exact ⟨rt, by rw [List.getElem?_append_left hl, hrt], rfl, rfl⟩

theorem keepsClosures_set (l : List AfterFunc) (h : Nat) (rt rt2 : AfterFunc)
    (hrt : l[h]? = some rt) (hid : rt2.timerID = rt.timerID)
    (hst : rt2.startTime = rt.startTime) : KeepsClosures l (l.set h rt2) := by
  intro i x hx
  obtain ⟨hl, _⟩ := List.getElem?_eq_some.1 hrt
  by_cases hih : h = i
  · subst hih
    rw [hrt] at hx
    cases hx
    exact ⟨rt2, by simp [List.getElem?_set, hl], hid, hst⟩
  · exact ⟨x, by rw [List.getElem?_set_ne hih, hx], rfl, rfl⟩

/-- A step that adds no record to either map, leaves the channels alone and
keeps the runtime timers and the tickers keeps the invariant. -/
theorem inv_of_frame {s s2 : State} (hs : Inv s) (hp : s2.panicked = false)
    (ht : ∀ id rec, s2.timers id = some rec → s.timers id = some rec)
    (hi : s2.intervals = s.intervals) (hc : s2.chans = s.chans)
    (hk : s.tickers.length ≤ s2.tickers.length)
    (ha : KeepsClosures s.afterFuncs s2.afterFuncs) : Inv s2 where
  noPanic := hp
  closure := by
    intro id rec h
    obtain ⟨rt, h1, h2, h3⟩ := hs.closure id rec (ht id rec h)
    obtain ⟨rt2, h4, h5, h6⟩ := ha _ _ h1
    exact ⟨rt2, h4, h5.trans h2, h6.trans h3⟩
  quitOpen := by
    intro id iv h
    rw [hi] at h
    rw [hc]
    exact hs.quitOpen id iv h
  quitInj := by
    intro i j a b h1 h2
    rw [hi] at h1 h2
    exact hs.quitInj i j a b h1 h2
  tickerValid := by
    intro id iv tk h1 h2
    rw [hi] at h1
    exact lt_of_lt_of_le (hs.tickerValid id iv tk h1 h2) hk

theorem inv_init : Inv init where
  noPanic := rfl
  closure := by intro id rec h; simp [init] at h
  quitOpen := by intro id iv h; simp [init] at h
  quitInj := by intro i j a b h; simp [init] at h
  tickerValid := by intro id iv tk h; simp [init] at h

theorem inv_expire (h : Nat) {s : State} (hs : Inv s) : Inv (expire h s) := by
  unfold expire
  split
  · rename_i rt hrt
    split
    · exact inv_of_frame hs hs.noPanic (fun _ _ x => x) rfl rfl (le_refl _)
        (keepsClosures_set _ _ rt _ hrt rfl rfl)
    · exact hs
  · exact hs

theorem inv_callbackSince (h : Nat) {s : State} (hs : Inv s) :
    Inv (callbackSince h s) := by
  unfold callbackSince
  split
  · rename_i rt hrt
    split
    · exact inv_of_frame hs hs.noPanic (fun _ _ x => x) rfl rfl (le_refl _)
        (keepsClosures_set _ _ rt _ hrt rfl rfl)
    · exact hs
  · exact hs

theorem delete_eq_some {α : Type} {m : GoMap α} {k j : GoString} {v : α}
    (h : m.delete k j = some v) : m j = some v := by
  unfold GoMap.delete at h
  split at h
  · cases h
  · exact h

theorem inv_callbackDelete (h : Nat) {s : State} (hs : Inv s) :
    Inv (callbackDelete h s) := by
  unfold callbackDelete
  split
  · rename_i rt hrt
    split
    · exact inv_of_frame hs hs.noPanic (fun _ _ x => delete_eq_some x) rfl rfl (le_refl _)
        (keepsClosures_set _ _ rt _ hrt rfl rfl)
    · exact hs
  · exact hs

theorem inv_callbackFprintf (h : Nat) {s : State} (hs : Inv s) :
    Inv (callbackFprintf h s) := by
  unfold callbackFprintf
  split
  · rename_i rt hrt
    split
    · exact inv_of_frame hs hs.noPanic (fun _ _ x => x) rfl rfl (le_refl _)
        (keepsClosures_set _ _ rt _ hrt rfl rfl)
    · exact hs
  · exact hs

theorem inv_callbackFlush (h : Nat) {s : State} (hs : Inv s) :
    Inv (callbackFlush h s) := by
  unfold callbackFlush
  split
  · rename_i rt hrt
    split
    · split
      · exact inv_of_frame hs hs.noPanic (fun _ _ x => x) rfl rfl (le_refl _)
          (keepsClosures_set _ _ rt _ hrt rfl rfl)
      · exact inv_of_frame hs hs.noPanic (fun _ _ x => x) rfl rfl (le_refl _)
          (keepsClosures_set _ _ rt _ hrt rfl rfl)
    · exact hs
  · exact hs

theorem inv_callbackSettle (h : Nat) {s : State} (hs : Inv s) :
    Inv (callbackSettle h s) := by
  unfold callbackSettle
  split
  · rename_i rt hrt
    split
    · exact inv_of_frame hs hs.noPanic (fun _ _ x => x) rfl rfl (le_refl _)
        (keepsClosures_set _ _ rt _ hrt rfl rfl)
    · exact hs
  · exact hs

theorem inv_tickerSend (tk : Nat) {s : State} (hs : Inv s) : Inv (tickerSend tk s) := by
  unfold tickerSend
  split
  · split
    · exact inv_of_frame hs hs.noPanic (fun _ _ x => x) rfl rfl (by simp)
        (keepsClosures_refl _)
    · exact hs
  · exact hs

theorem inv_taskTick (k : Nat) {s : State} (hs : Inv s) : Inv (taskTick k s) := by
  unfold taskTick
  split
  · split
    · split
      · split
        · exact inv_of_frame hs hs.noPanic (fun _ _ x => x) rfl rfl (by simp)
            (keepsClosures_refl _)
        · exact hs
      · exact hs
    · exact hs
  · exact hs

theorem inv_taskQuit (k : Nat) {s : State} (hs : Inv s) : Inv (taskQuit k s) := by
  unfold taskQuit
  split
  · split
    · exact inv_of_frame hs hs.noPanic (fun _ _ x => x) rfl rfl (le_refl _)
        (keepsClosures_refl _)
    · exact hs
  · exact hs

theorem inv_taskDefault (k : Nat) {s : State} (hs : Inv s) : Inv (taskDefault k s) := by
  unfold taskDefault
  split
  · split
    · exact inv_of_frame hs hs.noPanic (fun _ _ x => x) rfl rfl (le_refl _)
        (keepsClosures_refl _)
    · exact hs
  · exact hs

theorem inv_taskFprintf (k : Nat) {s : State} (hs : Inv s) : Inv (taskFprintf k s) := by
  unfold taskFprintf
  split
  · split
    · exact inv_of_frame hs hs.noPanic (fun _ _ x => x) rfl rfl (le_refl _)
        (keepsClosures_refl _)
    · exact hs
  · exact hs

theorem inv_taskFlush (k : Nat) {s : State} (hs : Inv s) : Inv (taskFlush k s) := by
  unfold taskFlush
  split
  · split
    · split
      · exact inv_of_frame hs hs.noPanic (fun _ _ x => x) rfl rfl (le_refl _)
          (keepsClosures_refl _)
      · exact inv_of_frame hs hs.noPanic (fun _ _ x => x) rfl rfl (le_refl _)
          (keepsClosures_refl _)
    · exact hs
  · exact hs

theorem inv_taskSettle (k : Nat) {s : State} (hs : Inv s) : Inv (taskSettle k s) := by
  unfold taskSettle
  split
  · split
    · exact inv_of_frame hs hs.noPanic (fun _ _ x => x) rfl rfl (le_refl _)
        (keepsClosures_refl _)
    · exact hs
  · exact hs

theorem inv_stopTimer (h : Nat) {s : State} (hs : Inv s) : Inv (stopTimer h s) := by
  unfold stopTimer
  split
  · rename_i rt hrt
    split
    · exact inv_of_frame hs hs.noPanic (fun _ _ x => x) rfl rfl (le_refl _)
        (keepsClosures_set _ _ rt _ hrt rfl rfl)
    · exact hs
  · exact hs

theorem inv_setTimeout (timerID : GoString) (duration : Int) {s : State} (hs : Inv s) :
    Inv (setTimeout timerID duration s) := by
  unfold setTimeout
  split
  · exact hs
  · refine ⟨hs.noPanic, ?_, hs.quitOpen, hs.quitInj, hs.tickerValid⟩
    intro id rec h
    simp only [GoMap.insert] at h
    split at h
    · rename_i hid
      cases h
      exact ⟨_, List.getElem?_concat_length _ _, hid.symm, rfl⟩
    · obtain ⟨rt, h1, h2, h3⟩ := hs.closure id rec h
      obtain ⟨rt2, h4, h5, h6⟩ := keepsClosures_append s.afterFuncs
        ⟨timerID, s.clock, duration, .armed⟩ _ _ h1
      exact ⟨rt2, h4, h5.trans h2, h6.trans h3⟩

theorem inv_clearTimeout (timerID : GoString) {s : State} (hs : Inv s) :
    Inv (clearTimeout timerID s) := by
  unfold clearTimeout
  split
  · rename_i timerStruct _
    have h1 := inv_stopTimer timerStruct.timer hs
    exact inv_of_frame h1 h1.noPanic (fun _ _ x => delete_eq_some x) rfl rfl (le_refl _)
      (keepsClosures_refl _)
  · exact hs

theorem inv_setInterval (timerID : GoString) (duration : Int) {s : State} (hs : Inv s) :
    Inv (setInterval timerID duration s) := by
  have hfresh : ∀ id iv, s.intervals id = some iv → iv.quit < s.chans.length := by
    intro id iv h
    exact (List.getElem?_eq_some.1 (hs.quitOpen id iv h)).1
  have hopen : ∀ id iv, s.intervals id = some iv →
      (s.chans ++ [false])[iv.quit]? = some false := by
    intro id iv h
    rw [List.getElem?_append_left (hfresh id iv h)]
    exact hs.quitOpen id iv h
  unfold setInterval
  split
  · exact hs
  · split
    · refine ⟨hs.noPanic, hs.closure, ?_, ?_, ?_⟩
      · intro id iv h
        simp only [GoMap.insert] at h
        split at h
        · cases h
          exact List.getElem?_concat_length _ _
        · exact hopen id iv h
      · intro i j a b h1 h2 hq
        simp only [GoMap.insert] at h1 h2
        split at h1 <;> split at h2
        · simp_all
        · cases h1
          have := hfresh j b h2
          simp at hq
          omega
        · cases h2
          have := hfresh i a h1
          simp at hq
          omega
        · exact hs.quitInj i j a b h1 h2 hq
      · intro id iv tk h1 h2
        simp only [GoMap.insert] at h1
        split at h1
        · cases h1
          simp at h2
          simp [← h2]
        · have := hs.tickerValid id iv tk h1 h2
          simp
          omega
    · refine ⟨hs.noPanic, hs.closure, ?_, ?_, ?_⟩
      · intro id iv h
        simp only [GoMap.insert] at h
        split at h
        · cases h
          exact List.getElem?_concat_length _ _
        · exact hopen id iv h
      · intro i j a b h1 h2 hq
        simp only [GoMap.insert] at h1 h2
        split at h1 <;> split at h2
        · simp_all
        · cases h1
          have := hfresh j b h2
          simp at hq
          omega
        · cases h2
          have := hfresh i a h1
          simp at hq
          omega
        · exact hs.quitInj i j a b h1 h2 hq
      · intro id iv tk h1 h2
        simp only [GoMap.insert] at h1
        split at h1
        · cases h1
          simp at h2
        · exact hs.tickerValid id iv tk h1 h2

theorem inv_stopTicker (tk : Nat) {s : State} (hs : Inv s) : Inv (stopTicker tk s) := by
  unfold stopTicker
  split
  · exact inv_of_frame hs hs.noPanic (fun _ _ x => x) rfl rfl (by simp)
      (keepsClosures_refl _)
  · exact hs

theorem inv_clearInterval (timerID : GoString) {s : State} (hs : Inv s) :
    Inv (clearInterval timerID s) := by
  unfold clearInterval
  split
  · rename_i interval hiv
    have key : ∀ s1 : State, Inv s1 → s1.intervals = s.intervals →
        Inv (match closeChan interval.quit s1 with
          | some s2 => { s2 with intervals := s2.intervals.delete timerID }
          | none => { s1 with panicked := true }) := by
      intro s1 h1 hi
      have ho : s1.chans[interval.quit]? = some false :=
        h1.quitOpen timerID interval (by rw [hi]; exact hiv)
      have hl := (List.getElem?_eq_some.1 ho).1
      simp only [closeChan, ho]
      refine ⟨h1.noPanic, h1.closure, ?_, ?_, ?_⟩
      · intro id iv h
        have h2 := delete_eq_some h
        have hne : id ≠ timerID := by
          intro he
          simp [GoMap.delete, he] at h
        have hq : interval.quit ≠ iv.quit := by
          intro he
          exact hne (h1.quitInj id timerID iv interval h2 (by rw [hi]; exact hiv) he.symm)
        show (s1.chans.set interval.quit true)[iv.quit]? = some false
        rw [List.getElem?_set_ne hq]
        exact h1.quitOpen id iv h2
      · intro i j a b h2 h3
        exact h1.quitInj i j a b (delete_eq_some h2) (delete_eq_some h3)
      · intro id iv tk h2 h3
        exact h1.tickerValid id iv tk (delete_eq_some h2) h3
    cases hT : interval.ticker with
    | none => exact key s hs rfl
    | some tk =>
      refine key (stopTicker tk s) (inv_stopTicker tk hs) ?_
      unfold stopTicker
      split <;> rfl
  · exact hs

theorem inv_mainStep (line : GoString) {s : State} (hs : Inv s) :
    Inv (mainStep line s) := by
  unfold mainStep
  split
  · exact hs
  · exact hs
  · split
    · split
      · exact hs
      · split
        · exact hs
        · exact inv_setTimeout _ _ hs
    · split
      · exact inv_clearTimeout _ hs
      · split
        · split
          · exact hs
          · split
            · exact hs
            · exact inv_setInterval _ _ hs
        · split
          · exact inv_clearInterval _ hs
          · exact hs

theorem inv_readLine (raw : GoString) {s : State} (hs : Inv s) :
    Inv (readLine raw s) := by
  unfold readLine
  split
  · exact inv_of_frame hs hs.noPanic (fun _ _ x => x) rfl rfl (le_refl _)
      (keepsClosures_refl _)
  · exact inv_mainStep _ hs

theorem step_of_running (a : Action) (s : State) (hp : s.panicked = false)
    (he : s.exited = false) :
    step a s = match a with
      | .clock t => { s with clock := t }
      | .stdout room => { s with output := { s.output with room := room } }
      | .line raw => readLine raw s
      | .eof => { s with exited := true }
      | .expire h => expire h s
      | .callbackSince h => callbackSince h s
      | .callbackDelete h => callbackDelete h s
      | .callbackFprintf h => callbackFprintf h s
      | .callbackFlush h => callbackFlush h s
      | .callbackSettle h => callbackSettle h s
      | .tickerSend tk => tickerSend tk s
      | .taskTick k => taskTick k s
      | .taskQuit k => taskQuit k s
      | .taskDefault k => taskDefault k s
      | .taskFprintf k => taskFprintf k s
      | .taskFlush k => taskFlush k s
      | .taskSettle k => taskSettle k s := by
  simp only [step, hp, he, Bool.false_eq_true, if_false]

theorem step_of_stopped (a : Action) (s : State)
    (h : s.panicked = true ∨ s.exited = true) : step a s = s := by
  rcases h with h | h
  · simp [step, h]
  · simp [step, h]

theorem inv_step (a : Action) {s : State} (hs : Inv s) : Inv (step a s) := by
  have hp := hs.noPanic
  by_cases he : s.exited = true
  · rw [step_of_stopped a s (Or.inr he)]
    exact hs
  · have he2 : s.exited = false := by simpa using he
    rw [step_of_running a s hp he2]
    cases a with
    | clock t =>
      exact inv_of_frame hs hp (fun _ _ x => x) rfl rfl (le_refl _) (keepsClosures_refl _)
    | stdout room =>
      exact inv_of_frame hs hp (fun _ _ x => x) rfl rfl (le_refl _) (keepsClosures_refl _)
    | line l => exact inv_readLine l hs
    | eof =>
      exact inv_of_frame hs hp (fun _ _ x => x) rfl rfl (le_refl _) (keepsClosures_refl _)
    | expire h => exact inv_expire h hs
    | callbackSince h => exact inv_callbackSince h hs
    | callbackDelete h => exact inv_callbackDelete h hs
    | callbackFprintf h => exact inv_callbackFprintf h hs
    | callbackFlush h => exact inv_callbackFlush h hs
    | callbackSettle h => exact inv_callbackSettle h hs
    | tickerSend tk => exact inv_tickerSend tk hs
    | taskTick k => exact inv_taskTick k hs
    | taskQuit k => exact inv_taskQuit k hs
    | taskDefault k => exact inv_taskDefault k hs
    | taskFprintf k => exact inv_taskFprintf k hs
    | taskFlush k => exact inv_taskFlush k hs
    | taskSettle k => exact inv_taskSettle k hs

theorem inv_run (as : List Action) {s : State} (hs : Inv s) : Inv (run as s) := by
  induction as generalizing s with
  | nil => exact hs
  | cons a as ih => exact ih (inv_step a hs)

theorem stopTimer_frame (h : Nat) (s : State) :
    (stopTimer h s).clock = s.clock ∧ (stopTimer h s).timers = s.timers ∧
    (stopTimer h s).intervals = s.intervals ∧ (stopTimer h s).output = s.output ∧
    (stopTimer h s).chans = s.chans ∧ (stopTimer h s).tickers = s.tickers ∧
    (stopTimer h s).tasks = s.tasks ∧ (stopTimer h s).panicked = s.panicked := by
  unfold stopTimer
  split
  · split <;> simp
  · simp

theorem stopTimer_output (h : Nat) (s : State) :
    (stopTimer h s).output = s.output ∧ (stopTimer h s).exited = s.exited := by
  unfold stopTimer
  split
  · split <;> simp
  · simp

theorem clearTimeout_absent (id : GoString) (s : State) (h : s.timers id = none) :
    clearTimeout id s = s := by
  simp only [clearTimeout, h]

theorem clearInterval_absent (id : GoString) (s : State) (h : s.intervals id = none) :
    clearInterval id s = s := by
  simp only [clearInterval, h]

theorem setTimeout_present (id : GoString) (d : Int) (s : State) (rec : Timer)
    (h : s.timers id = some rec) : setTimeout id d s = s := by
  simp only [setTimeout, h]

theorem setInterval_present (id : GoString) (d : Int) (s : State) (iv : Interval)
    (h : s.intervals id = some iv) : setInterval id d s = s := by
  simp only [setInterval, h]

theorem setTimeout_absent (id : GoString) (d : Int) (s : State) (h : s.timers id = none) :
    setTimeout id d s =
      { s with
        afterFuncs := s.afterFuncs ++ [⟨id, s.clock, d, .armed⟩]
        timers := s.timers.insert id ⟨s.afterFuncs.length, s.clock⟩ } := by
  simp only [setTimeout, h]

theorem insert_self {α : Type} (m : GoMap α) (k : GoString) (v : α) :
    m.insert k v k = some v := by
  simp [GoMap.insert]

theorem delete_self {α : Type} (m : GoMap α) (k : GoString) : m.delete k k = none := by
  simp [GoMap.delete]

theorem delete_ne {α : Type} (m : GoMap α) (k j : GoString) (h : j ≠ k) :
    m.delete k j = m j := by
  simp [GoMap.delete, h]

theorem timersFrom_refl (s : State) : TimersFrom s s :=
  ⟨rfl, fun _ _ h => Or.inl h⟩

theorem timersFrom_of_eq {s s2 : State} (hc : s2.clock = s.clock)
    (ht : s2.timers = s.timers) : TimersFrom s s2 :=
  ⟨hc, fun _ _ h => Or.inl (ht ▸ h)⟩

theorem timersFrom_expire (h : Nat) (s : State) : TimersFrom s (expire h s) := by
  unfold expire
  split
  · split
    · exact timersFrom_of_eq rfl rfl
    · exact timersFrom_refl s
  · exact timersFrom_refl s

theorem timersFrom_callbackSince (h : Nat) (s : State) :
    TimersFrom s (callbackSince h s) := by
  unfold callbackSince
  split
  · split
    · exact timersFrom_of_eq rfl rfl
    · exact timersFrom_refl s
  · exact timersFrom_refl s

theorem timersFrom_callbackDelete (h : Nat) (s : State) :
    TimersFrom s (callbackDelete h s) := by
  unfold callbackDelete
  split
  · split
    · exact ⟨rfl, fun _ _ x => Or.inl (delete_eq_some x)⟩
    · exact timersFrom_refl s
  · exact timersFrom_refl s

theorem timersFrom_callbackFprintf (h : Nat) (s : State) :
    TimersFrom s (callbackFprintf h s) := by
  unfold callbackFprintf
  split
  · split
    · exact timersFrom_of_eq rfl rfl
    · exact timersFrom_refl s
  · exact timersFrom_refl s

theorem timersFrom_callbackFlush (h : Nat) (s : State) :
    TimersFrom s (callbackFlush h s) := by
  unfold callbackFlush
  split
  · split
    · split
      · exact timersFrom_of_eq rfl rfl
      · exact timersFrom_of_eq rfl rfl
    · exact timersFrom_refl s
  · exact timersFrom_refl s

theorem timersFrom_callbackSettle (h : Nat) (s : State) :
    TimersFrom s (callbackSettle h s) := by
  unfold callbackSettle
  split
  · split
    · exact timersFrom_of_eq rfl rfl
    · exact timersFrom_refl s
  · exact timersFrom_refl s

theorem timersFrom_tickerSend (tk : Nat) (s : State) : TimersFrom s (tickerSend tk s) := by
  unfold tickerSend
  split
  · split
    · exact timersFrom_of_eq rfl rfl
    · exact timersFrom_refl s
  · exact timersFrom_refl s

theorem timersFrom_taskTick (k : Nat) (s : State) : TimersFrom s (taskTick k s) := by
  unfold taskTick
  split
  · split
    · split
      · split
        · exact timersFrom_of_eq rfl rfl
        · exact timersFrom_refl s
      · exact timersFrom_refl s
    · exact timersFrom_refl s
  · exact timersFrom_refl s

theorem timersFrom_taskQuit (k : Nat) (s : State) : TimersFrom s (taskQuit k s) := by
  unfold taskQuit
  split
  · split
    · exact timersFrom_of_eq rfl rfl
    · exact timersFrom_refl s
  · exact timersFrom_refl s

theorem timersFrom_taskDefault (k : Nat) (s : State) : TimersFrom s (taskDefault k s) := by
  unfold taskDefault
  split
  · split
    · exact timersFrom_of_eq rfl rfl
    · exact timersFrom_refl s
  · exact timersFrom_refl s

theorem timersFrom_taskFprintf (k : Nat) (s : State) : TimersFrom s (taskFprintf k s) := by
  unfold taskFprintf
  split
  · split
    · exact timersFrom_of_eq rfl rfl
    · exact timersFrom_refl s
  · exact timersFrom_refl s

theorem timersFrom_taskFlush (k : Nat) (s : State) : TimersFrom s (taskFlush k s) := by
  unfold taskFlush
  split
  · split
    · split
      · exact timersFrom_of_eq rfl rfl
      · exact timersFrom_of_eq rfl rfl
    · exact timersFrom_refl s
  · exact timersFrom_refl s

theorem timersFrom_taskSettle (k : Nat) (s : State) : TimersFrom s (taskSettle k s) := by
  unfold taskSettle
  split
  · split
    · exact timersFrom_of_eq rfl rfl
    · exact timersFrom_refl s
  · exact timersFrom_refl s

theorem timersFrom_setTimeout (id : GoString) (d : Int) (s : State) :
    TimersFrom s (setTimeout id d s) := by
  unfold setTimeout
  split
  · exact timersFrom_refl s
  · refine ⟨rfl, ?_⟩
    intro j rec h
    simp only [GoMap.insert] at h
    split at h
    · cases h
      exact Or.inr rfl
    · exact Or.inl h

theorem timersFrom_clearTimeout (id : GoString) (s : State) :
    TimersFrom s (clearTimeout id s) := by
  unfold clearTimeout
  split
  · rename_i rec _
    obtain ⟨h1, h2, -⟩ := stopTimer_frame rec.timer s
    refine ⟨h1, ?_⟩
    intro j r h
    have := delete_eq_some h
    exact Or.inl (h2 ▸ this)
  · exact timersFrom_refl s

theorem timersFrom_setInterval (id : GoString) (d : Int) (s : State) :
    TimersFrom s (setInterval id d s) := by
  unfold setInterval
  split
  · exact timersFrom_refl s
  · split
    · exact timersFrom_of_eq rfl rfl
    · exact timersFrom_of_eq rfl rfl

theorem stopTicker_frame (tk : Nat) (s : State) :
    (stopTicker tk s).clock = s.clock ∧ (stopTicker tk s).timers = s.timers ∧
    (stopTicker tk s).intervals = s.intervals ∧ (stopTicker tk s).output = s.output ∧
    (stopTicker tk s).chans = s.chans ∧ (stopTicker tk s).afterFuncs = s.afterFuncs ∧
    (stopTicker tk s).tasks = s.tasks ∧ (stopTicker tk s).panicked = s.panicked := by
  unfold stopTicker
  split <;> simp

theorem timersFrom_clearInterval (id : GoString) (s : State) :
    TimersFrom s (clearInterval id s) := by
  unfold clearInterval
  split
  · rename_i iv _
    have key : ∀ s1 : State, s1.clock = s.clock → s1.timers = s.timers →
        TimersFrom s (match closeChan iv.quit s1 with
          | some s2 => { s2 with intervals := s2.intervals.delete id }
          | none => { s1 with panicked := true }) := by
      intro s1 hc ht
      unfold closeChan
      rcases s1.chans[iv.quit]? with _ | b
      · exact timersFrom_of_eq hc ht
      · cases b
        · exact timersFrom_of_eq hc ht
        · exact timersFrom_of_eq hc ht
    cases iv.ticker with
    | none => exact key s rfl rfl
    | some tk => exact key _ (stopTicker_frame tk s).1 (stopTicker_frame tk s).2.1
  · exact timersFrom_refl s

theorem timersFrom_mainStep (line : GoString) (s : State) :
    TimersFrom s (mainStep line s) := by
  unfold mainStep
  split
  · exact timersFrom_refl s
  · exact timersFrom_refl s
  · split
    · split
      · exact timersFrom_refl s
      · split
        · exact timersFrom_refl s
        · exact timersFrom_setTimeout _ _ s
    · split
      · exact timersFrom_clearTimeout _ s
      · split
        · split
          · exact timersFrom_refl s
          · split
            · exact timersFrom_refl s
            · exact timersFrom_setInterval _ _ s
        · split
          · exact timersFrom_clearInterval _ s
          · exact timersFrom_refl s

theorem startBeforeClock_of_timersFrom {s s2 : State} (h : TimersFrom s s2)
    (hs : StartBeforeClock s) : StartBeforeClock s2 := by
  intro id rec hr
  rw [h.1]
  rcases h.2 id rec hr with h1 | h1
  · exact hs id rec h1
  · exact le_of_eq h1

theorem startBeforeClock_init : StartBeforeClock init := by
  intro id rec h
  simp [init] at h

theorem timersFrom_readLine (raw : GoString) (s : State) :
    TimersFrom s (readLine raw s) := by
  unfold readLine
  split
  · exact timersFrom_of_eq rfl rfl
  · exact timersFrom_mainStep _ s

theorem run_append (as bs : List Action) (s : State) :
    run (as ++ bs) s = run bs (run as s) := by
  simp [run, List.foldl_append]

theorem run_of_stopped (as : List Action) (s : State)
    (h : s.panicked = true ∨ s.exited = true) : run as s = s := by
  induction as with
  | nil => rfl
  | cons a as ih =>
    show run as (step a s) = s
    rw [step_of_stopped a s h, ih]

theorem startBeforeClock_run (as : List Action) {s : State}
    (hm : clockMonotone s.clock as = true) (hs : StartBeforeClock s) :
    StartBeforeClock (run as s) := by
  induction as generalizing s with
  | nil => exact hs
  | cons a as ih =>
    by_cases hstop : s.panicked = true ∨ s.exited = true
    · rw [run_of_stopped _ s hstop]
      exact hs
    · have hp : s.panicked = false := by
        cases h : s.panicked with
        | false => rfl
        | true => exact absurd (Or.inl h) hstop
      have he : s.exited = false := by
        cases h : s.exited with
        | false => rfl
        | true => exact absurd (Or.inr h) hstop
      show StartBeforeClock (run as (step a s))
      have key : ∀ s2 : State, TimersFrom s s2 → clockMonotone s.clock as = true →
          StartBeforeClock (run as s2) := by
        intro s2 hf hm2
        exact ih (by rw [hf.1]; exact hm2) (startBeforeClock_of_timersFrom hf hs)
      rw [step_of_running a s hp he]
      cases a with
      | clock t =>
        simp only [clockMonotone, Bool.and_eq_true, decide_eq_true_eq] at hm
        refine ih hm.2 ?_
        intro id rec hr
        exact le_trans (hs id rec hr) hm.1
      | stdout room => exact key _ (timersFrom_of_eq rfl rfl) hm
      | line l => exact key _ (timersFrom_readLine l s) hm
      | eof => exact key _ (timersFrom_of_eq rfl rfl) hm
      | expire h => exact key _ (timersFrom_expire h s) hm
      | callbackSince h => exact key _ (timersFrom_callbackSince h s) hm
      | callbackDelete h => exact key _ (timersFrom_callbackDelete h s) hm
      | callbackFprintf h => exact key _ (timersFrom_callbackFprintf h s) hm
      | callbackFlush h => exact key _ (timersFrom_callbackFlush h s) hm
      | callbackSettle h => exact key _ (timersFrom_callbackSettle h s) hm
      | tickerSend h => exact key _ (timersFrom_tickerSend h s) hm
      | taskTick h => exact key _ (timersFrom_taskTick h s) hm
      | taskQuit h => exact key _ (timersFrom_taskQuit h s) hm
      | taskDefault h => exact key _ (timersFrom_taskDefault h s) hm
      | taskFprintf h => exact key _ (timersFrom_taskFprintf h s) hm
      | taskFlush h => exact key _ (timersFrom_taskFlush h s) hm
      | taskSettle h => exact key _ (timersFrom_taskSettle h s) hm

theorem parseInt_nil : ParseInt [] = (0, some .ErrSyntax) := rfl

theorem take_length_pred_append (p : GoString) (u : Byte) :
    (p ++ [u]).take ((p ++ [u]).length - 1) = p := by
  simp

theorem getElem_length_pred_append (p : GoString) (u : Byte)
    (h : (p ++ [u]).length - 1 < (p ++ [u]).length) :
    (p ++ [u])[(p ++ [u]).length - 1] = u := by
  simp

theorem wrap64_of_range (x : Int) (h1 : -(2 ^ 63) ≤ x) (h2 : x < 2 ^ 63) : wrap64 x = x := by
  unfold wrap64
  rw [Int.emod_eq_of_lt (by omega) (by omega)]
  omega

theorem parseDuration_append (p : GoString) (u : Byte) (n : Int)
    (hp : ParseInt p = (n, none)) (hu : u ∈ unitBytes) :
    parseDuration (p ++ [u]) = (wrap64 (n * unitScale u), none) := by
  have hne : p ≠ [] := by
    intro h
    rw [h, parseInt_nil] at hp
    cases hp
  have hlen : ¬ (p ++ [u]).length < 2 := by
    cases p with
    | nil => exact absurd rfl hne
    | cons a t => simp
  unfold parseDuration
  rw [dif_neg hlen]
  simp only [take_length_pred_append, getElem_length_pred_append, hp]
  simp only [unitBytes, List.mem_cons, List.mem_singleton, List.not_mem_nil, or_false] at hu
  rcases hu with h | h | h | h <;> subst h <;>
    simp [unitScale, chr, Second, Millisecond, Microsecond, Nanosecond]

/-- The three ways `parseDuration` fails, in the order the code checks them. -/
theorem parseDuration_cases (s : GoString) :
    (s.length < 2 → parseDuration s = (0, some (.errorf (str "invalid duration")))) ∧
    (¬ s.length < 2 → ∀ e, (ParseInt (s.take (s.length - 1))).2 = some e →
      parseDuration s = (0, some (.numError (s.take (s.length - 1)) e))) ∧
    (¬ s.length < 2 → (ParseInt (s.take (s.length - 1))).2 = none →
      (¬ ∃ u ∈ unitBytes, s.getLast? = some u) →
      parseDuration s = (0, some (.errorf (str "invalid duration unit")))) ∧
    (¬ s.length < 2 → (ParseInt (s.take (s.length - 1))).2 = none →
      (∃ u ∈ unitBytes, s.getLast? = some u) → (parseDuration s).2 = none) := by
  refine ⟨?_, ?_, ?_, ?_⟩
  · intro h
    unfold parseDuration
    rw [dif_pos h]
  · intro h e he
    unfold parseDuration
    rw [dif_neg h]
    rcases hp : ParseInt (s.take (s.length - 1)) with ⟨v, err⟩
    rw [hp] at he
    cases he
    simp only [hp]
  · intro h he hu
    unfold parseDuration
    rw [dif_neg h]
    rcases hp : ParseInt (s.take (s.length - 1)) with ⟨v, err⟩
    rw [hp] at he
    cases he
    have hl : s.getLast? = some s[s.length - 1] := by
      rw [List.getLast?_eq_getElem?]
      exact List.getElem?_eq_getElem _
    simp only [unitBytes, List.mem_cons, List.mem_singleton, List.not_mem_nil, or_false,
      hl, Option.some.injEq] at hu
    have h1 : ¬ s[s.length - 1] = chr 's' := fun x => hu ⟨_, Or.inl rfl, x⟩
    have h2 : ¬ s[s.length - 1] = chr 'm' := fun x => hu ⟨_, Or.inr (Or.inl rfl), x⟩
    have h3 : ¬ s[s.length - 1] = chr 'u' := fun x => hu ⟨_, Or.inr (Or.inr (Or.inl rfl)), x⟩
    have h4 : ¬ s[s.length - 1] = chr 'n' :=
      fun x => hu ⟨_, Or.inr (Or.inr (Or.inr rfl)), x⟩
    simp only [hp, h1, h2, h3, h4, if_false]
  · intro h he hu
    unfold parseDuration
    rw [dif_neg h]
    rcases hp : ParseInt (s.take (s.length - 1)) with ⟨v, err⟩
    rw [hp] at he
    cases he
    have hl : s.getLast? = some s[s.length - 1] := by
      rw [List.getLast?_eq_getElem?]
      exact List.getElem?_eq_getElem _
    obtain ⟨u, hu1, hu2⟩ := hu
    rw [hl] at hu2
    cases hu2
    simp only [unitBytes, List.mem_cons, List.mem_singleton, List.not_mem_nil, or_false] at hu1
    rcases hu1 with h | h | h | h <;> simp [hp, h, chr]

/-! ## Reachable states and single commands -/

theorem inv_of_reachable {s : State} (h : Reachable s) : Inv s := by
  obtain ⟨as, rfl⟩ := h
  exact inv_run as inv_init

theorem startBeforeClock_of_monotoneReachable {s : State} (h : MonotoneReachable s) :
    StartBeforeClock s := by
  obtain ⟨as, hm, rfl⟩ := h
  exact startBeforeClock_run as hm startBeforeClock_init

theorem setTimeout_twice (id : GoString) (d d2 : Int) (s : State) :
    setTimeout id d2 (setTimeout id d s) = setTimeout id d s := by
  cases h : s.timers id with
  | some rec =>
    rw [setTimeout_present id d s rec h, setTimeout_present id d2 s rec h]
  | none =>
    rw [setTimeout_absent id d s h]
    exact setTimeout_present id d2 _ _ (insert_self _ _ _)

theorem mainStep_of_malformed (line : GoString) (s : State) (h : Malformed line) :
    mainStep line s = s := by
  unfold Malformed at h
  unfold mainStep
  rcases hf : Fields line with _ | ⟨cmd, _ | ⟨timerID, args⟩⟩
  · rfl
  · rfl
  · rw [hf] at h
    simp only [List.length_cons, List.getElem?_cons_zero, Option.some.injEq,
      List.getElem?_cons_succ] at h
    rcases h with h | h | ⟨hc, h⟩
    · omega
    · have h1 : cmd ≠ str "setTimeout" :=
        fun x => h (str "setTimeout") (by simp [commandNames]) (by rw [x])
      have h2 : cmd ≠ str "clearTimeout" :=
        fun x => h (str "clearTimeout") (by simp [commandNames]) (by rw [x])
      have h3 : cmd ≠ str "setInterval" :=
        fun x => h (str "setInterval") (by simp [commandNames]) (by rw [x])
      have h4 : cmd ≠ str "clearInterval" :=
        fun x => h (str "clearInterval") (by simp [commandNames]) (by rw [x])
      simp only [h1, h2, h3, h4, if_false]
    · have hargs : ∀ a t, args = a :: t → ∃ v e, parseDuration a = (v, some e) := by
        intro a t hat
        subst hat
        rcases h with h | h
        · simp only [List.length_cons] at h
          omega
        · simp only [List.getElem?_cons_zero, Option.map_some', Option.some.injEq] at h
          rcases hp : parseDuration a with ⟨v, _ | e⟩
          · rw [hp] at h
            simp at h
          · exact ⟨v, e, rfl⟩
      rcases hc with hc | hc
      · subst hc
        simp only [if_true]
        cases args with
        | nil => rfl
        | cons a t =>
          obtain ⟨v, e, hp⟩ := hargs a t rfl
          simp only [hp]
      · subst hc
        have hne1 : str "setInterval" ≠ str "setTimeout" := by decide
        have hne2 : str "setInterval" ≠ str "clearTimeout" := by decide
        simp only [hne1, hne2, if_false, if_true]
        cases args with
        | nil => rfl
        | cons a t =>
          obtain ⟨v, e, hp⟩ := hargs a t rfl
          simp only [hp]

theorem clearInterval_present (id : GoString) (s : State) (iv : Interval)
    (h : s.intervals id = some iv) (ho : s.chans[iv.quit]? = some false) :
    (clearInterval id s).chans = s.chans.set iv.quit true ∧
    (clearInterval id s).intervals = s.intervals.delete id ∧
    (clearInterval id s).timers = s.timers ∧
    (clearInterval id s).out = s.out ∧
    (clearInterval id s).panicked = s.panicked ∧
    (clearInterval id s).tickers
      = (match iv.ticker with
        | some tk => (stopTicker tk s).tickers
        | none => s.tickers) := by
  obtain ⟨tk, q⟩ := iv
  cases tk with
  | none => simp [clearInterval, h, closeChan, ho]
  | some tk =>
    obtain ⟨-, h2, h3, h4, h5, -, -, h8⟩ := stopTicker_frame tk s
    simp only at ho
    simp [clearInterval, h, closeChan, ho, h2, h3, h4, h5, h8, State.out]

/-! ## Steps of the runtime and the go routines inside a command -/

theorem quietFrame_refl (s : State) : QuietFrame s s :=
  ⟨rfl, rfl, rfl, fun _ _ h _ => h⟩

theorem quietFrame_trans {s s2 s3 : State} (h1 : QuietFrame s s2) (h2 : QuietFrame s2 s3) :
    QuietFrame s s3 :=
  ⟨h2.1.trans h1.1, h2.2.1.trans h1.2.1, h2.2.2.1.trans h1.2.2.1,
    fun h rt hrt hst => h2.2.2.2 h rt (h1.2.2.2 h rt hrt hst) hst⟩

theorem quietFrame_of_afterFuncs {s s2 : State} (ho : s2.output = s.output)
    (ht : s2.timers = s.timers) (hi : s2.intervals = s.intervals)
    (ha : s2.afterFuncs = s.afterFuncs) : QuietFrame s s2 :=
  ⟨ho, ht, hi, fun _ _ h _ => by rw [ha]; exact h⟩

theorem quietFrame_set (s : State) (h0 : Nat) (rt0 rt1 : AfterFunc)
    (h : s.afterFuncs[h0]? = some rt0) (hne : rt0.stage ≠ .stopped) :
    QuietFrame s { s with afterFuncs := s.afterFuncs.set h0 rt1 } := by
  refine ⟨rfl, rfl, rfl, ?_⟩
  intro h1 rt hrt hst
  by_cases heq : h0 = h1
  · subst heq
    rw [h] at hrt
    cases hrt
    exact absurd hst hne
  · show (s.afterFuncs.set h0 rt1)[h1]? = some rt
    rw [List.getElem?_set_ne heq]
    exact hrt

theorem quietFrame_expire (h : Nat) (s : State) : QuietFrame s (expire h s) := by
  unfold expire
  split
  · rename_i rt hrt
    split
    · rename_i hc
      exact quietFrame_set s h rt _ hrt (by rw [hc.1]; decide)
    · exact quietFrame_refl s
  · exact quietFrame_refl s

theorem quietFrame_callbackSince (h : Nat) (s : State) :
    QuietFrame s (callbackSince h s) := by
  unfold callbackSince
  split
  · rename_i rt hrt
    split
    · rename_i hc
      exact quietFrame_set s h rt _ hrt (by rw [hc]; decide)
    · exact quietFrame_refl s
  · exact quietFrame_refl s

theorem quietFrame_tickerSend (tk : Nat) (s : State) : QuietFrame s (tickerSend tk s) := by
  unfold tickerSend
  split
  · split
    · exact quietFrame_of_afterFuncs rfl rfl rfl rfl
    · exact quietFrame_refl s
  · exact quietFrame_refl s

theorem quietFrame_taskTick (k : Nat) (s : State) : QuietFrame s (taskTick k s) := by
  unfold taskTick
  split
  · split
    · split
      · split
        · exact quietFrame_of_afterFuncs rfl rfl rfl rfl
        · exact quietFrame_refl s
      · exact quietFrame_refl s
    · exact quietFrame_refl s
  · exact quietFrame_refl s

theorem quietFrame_taskQuit (k : Nat) (s : State) : QuietFrame s (taskQuit k s) := by
  unfold taskQuit
  split
  · split
    · exact quietFrame_of_afterFuncs rfl rfl rfl rfl
    · exact quietFrame_refl s
  · exact quietFrame_refl s

theorem quietFrame_taskDefault (k : Nat) (s : State) : QuietFrame s (taskDefault k s) := by
  unfold taskDefault
  split
  · split
    · exact quietFrame_of_afterFuncs rfl rfl rfl rfl
    · exact quietFrame_refl s
  · exact quietFrame_refl s

theorem quietFrame_step (a : Action) (s : State) (hq : a.quiet = true) :
    QuietFrame s (step a s) := by
  by_cases hstop : s.panicked = true ∨ s.exited = true
  · rw [step_of_stopped a s hstop]
    exact quietFrame_refl s
  · have hp : s.panicked = false := by
      cases h : s.panicked with
      | false => rfl
      | true => exact absurd (Or.inl h) hstop
    have he : s.exited = false := by
      cases h : s.exited with
      | false => rfl
      | true => exact absurd (Or.inr h) hstop
    rw [step_of_running a s hp he]
    cases a with
    | clock t => exact quietFrame_of_afterFuncs rfl rfl rfl rfl
    | expire h => exact quietFrame_expire h s
    | callbackSince h => exact quietFrame_callbackSince h s
    | tickerSend tk => exact quietFrame_tickerSend tk s
    | taskTick k => exact quietFrame_taskTick k s
    | taskQuit k => exact quietFrame_taskQuit k s
    | taskDefault k => exact quietFrame_taskDefault k s
    | stdout room => exact absurd hq (by simp [Action.quiet])
    | line l => exact absurd hq (by simp [Action.quiet])
    | eof => exact absurd hq (by simp [Action.quiet])
    | callbackDelete h => exact absurd hq (by simp [Action.quiet])
    | callbackFprintf h => exact absurd hq (by simp [Action.quiet])
    | callbackFlush h => exact absurd hq (by simp [Action.quiet])
    | callbackSettle h => exact absurd hq (by simp [Action.quiet])
    | taskFprintf k => exact absurd hq (by simp [Action.quiet])
    | taskFlush k => exact absurd hq (by simp [Action.quiet])
    | taskSettle k => exact absurd hq (by simp [Action.quiet])

theorem quietFrame_run (as : List Action) (s : State) (hq : ∀ a ∈ as, a.quiet = true) :
    QuietFrame s (run as s) := by
  induction as generalizing s with
  | nil => exact quietFrame_refl s
  | cons a as ih =>
    show QuietFrame s (run as (step a s))
    exact quietFrame_trans (quietFrame_step a s (hq a (List.mem_cons_self a as)))
      (ih (step a s) (fun b hb => hq b (List.mem_cons_of_mem a hb)))

theorem clock_le_run (as : List Action) (s : State)
    (hm : clockMonotone s.clock as = true) : s.clock ≤ (run as s).clock := by
  induction as generalizing s with
  | nil => exact le_refl _
  | cons a as ih =>
    by_cases hstop : s.panicked = true ∨ s.exited = true
    · rw [run_of_stopped _ s hstop]
    · have hp : s.panicked = false := by
        cases h : s.panicked with
        | false => rfl
        | true => exact absurd (Or.inl h) hstop
      have he : s.exited = false := by
        cases h : s.exited with
        | false => rfl
        | true => exact absurd (Or.inr h) hstop
      show s.clock ≤ (run as (step a s)).clock
      have key : ∀ s2 : State, TimersFrom s s2 → clockMonotone s.clock as = true →
          s.clock ≤ (run as s2).clock := by
        intro s2 hf hm2
        have := ih s2 (by rw [hf.1]; exact hm2)
        rw [hf.1] at this
        exact this
      rw [step_of_running a s hp he]
      cases a with
      | clock t =>
        simp only [clockMonotone, Bool.and_eq_true, decide_eq_true_eq] at hm
        exact le_trans hm.1 (ih { s with clock := t } hm.2)
      | stdout room => exact key _ (timersFrom_of_eq rfl rfl) hm
      | line l => exact key _ (timersFrom_readLine l s) hm
      | eof => exact key _ (timersFrom_of_eq rfl rfl) hm
      | expire h => exact key _ (timersFrom_expire h s) hm
      | callbackSince h => exact key _ (timersFrom_callbackSince h s) hm
      | callbackDelete h => exact key _ (timersFrom_callbackDelete h s) hm
      | callbackFprintf h => exact key _ (timersFrom_callbackFprintf h s) hm
      | callbackFlush h => exact key _ (timersFrom_callbackFlush h s) hm
      | callbackSettle h => exact key _ (timersFrom_callbackSettle h s) hm
      | tickerSend h => exact key _ (timersFrom_tickerSend h s) hm
      | taskTick h => exact key _ (timersFrom_taskTick h s) hm
      | taskQuit h => exact key _ (timersFrom_taskQuit h s) hm
      | taskDefault h => exact key _ (timersFrom_taskDefault h s) hm
      | taskFprintf h => exact key _ (timersFrom_taskFprintf h s) hm
      | taskFlush h => exact key _ (timersFrom_taskFlush h s) hm
      | taskSettle h => exact key _ (timersFrom_taskSettle h s) hm

theorem flushAmong_output (as : List Action) (s : State) (hq : ∀ a ∈ as, a.quiet = true) :
    (flushAmong as s).output = s.output.Flush ∧ (flushAmong as s).timers = s.timers ∧
    (flushAmong as s).intervals = s.intervals ∧
    ∀ (h : Nat) (rt : AfterFunc), s.afterFuncs[h]? = some rt → rt.stage = .stopped →
      (flushAmong as s).afterFuncs[h]? = some rt := by
  unfold flushAmong
  by_cases hidle : s.output.err = true ∨ s.output.buf.length = 0
  · rw [if_pos hidle]
    exact ⟨(flush_of_idle _ hidle).symm, rfl, rfl, fun _ _ h _ => h⟩
  · rw [if_neg hidle]
    have hf := quietFrame_run as
      { s with output := (s.output.stdoutWrite s.output.buf).1 } hq
    refine ⟨?_, hf.2.1, hf.2.2.1, hf.2.2.2⟩
    show Output.flushSettle _ _ (run as _).output = _
    rw [hf.1]
    exact flush_halves _ hidle

theorem stopTimer_armed (h : Nat) (s : State) (rt : AfterFunc)
    (hrt : s.afterFuncs[h]? = some rt) (harmed : rt.stage = .armed) :
    (stopTimer h s).afterFuncs[h]? = some { rt with stage := .stopped } := by
  have hl := (List.getElem?_eq_some.1 hrt).1
  simp [stopTimer, hrt, harmed, List.getElem?_set, hl]

theorem clearTimeoutAmong_nil (id : GoString) (s : State) :
    clearTimeoutAmong id [] [] [] [] [] [] s = clearTimeout id s := by
  unfold clearTimeoutAmong clearTimeout
  cases h : s.timers id with
  | none => rfl
  | some rec =>
    have hfl : ∀ t : State, flushAmong [] t = Flush t := by
      intro t
      unfold flushAmong
      by_cases hidle : t.output.err = true ∨ t.output.buf.length = 0
      · rw [if_pos hidle]
        show t = { t with output := t.output.Flush }
        rw [flush_of_idle _ hidle]
      · rw [if_neg hidle]
        show ({ t with output := Output.flushSettle _ _ (t.output.stdoutWrite t.output.buf).1 }
          : State) = { t with output := t.output.Flush }
        rw [flush_halves _ hidle]
    simp only [run, List.foldl_nil, hfl]

theorem clearTimeoutAmong_present (id : GoString) (s : State) (rec : Timer)
    (a0 a1 a2 a3 a4 a5 : List Action) (h : s.timers id = some rec)
    (h0 : ∀ a ∈ a0, a.quiet = true) (h1 : ∀ a ∈ a1, a.quiet = true)
    (h2 : ∀ a ∈ a2, a.quiet = true) (h3 : ∀ a ∈ a3, a.quiet = true)
    (h4 : ∀ a ∈ a4, a.quiet = true) (h5 : ∀ a ∈ a5, a.quiet = true) :
    (clearTimeoutAmong id a0 a1 a2 a3 a4 a5 s).output
      = (s.output.Write (fmtClearedTimeout id
          ((run a1 (stopTimer rec.timer (run a0 s))).clock - rec.startTime))).Flush ∧
    (clearTimeoutAmong id a0 a1 a2 a3 a4 a5 s).timers = s.timers.delete id ∧
    (clearTimeoutAmong id a0 a1 a2 a3 a4 a5 s).intervals = s.intervals ∧
    (∀ rt : AfterFunc, (run a0 s).afterFuncs[rec.timer]? = some rt → rt.stage = .armed →
      (clearTimeoutAmong id a0 a1 a2 a3 a4 a5 s).afterFuncs[rec.timer]?
        = some { rt with stage := .stopped }) ∧
    (run a1 (stopTimer rec.timer (run a0 s))).timers = s.timers := by
  have f0 := quietFrame_run a0 s h0
  obtain ⟨-, g2, g3, -⟩ := stopTimer_frame rec.timer (run a0 s)
  obtain ⟨g1, -⟩ := stopTimer_output rec.timer (run a0 s)
  have f1 := quietFrame_run a1 (stopTimer rec.timer (run a0 s)) h1
  have f2 := quietFrame_run a2 (run a1 (stopTimer rec.timer (run a0 s))) h2
  have f3 := quietFrame_run a3
    (Fprintf (fmtClearedTimeout id
      ((run a1 (stopTimer rec.timer (run a0 s))).clock - rec.startTime))
      (run a2 (run a1 (stopTimer rec.timer (run a0 s))))) h3
  have f4 := flushAmong_output a4
    (run a3 (Fprintf (fmtClearedTimeout id
      ((run a1 (stopTimer rec.timer (run a0 s))).clock - rec.startTime))
      (run a2 (run a1 (stopTimer rec.timer (run a0 s)))))) h4
  have f5 := quietFrame_run a5
    (flushAmong a4 (run a3 (Fprintf (fmtClearedTimeout id
      ((run a1 (stopTimer rec.timer (run a0 s))).clock - rec.startTime))
      (run a2 (run a1 (stopTimer rec.timer (run a0 s))))))) h5
  have hout : (run a2 (run a1 (stopTimer rec.timer (run a0 s)))).output = s.output := by
    rw [f2.1, f1.1, g1, f0.1]
  have htim : (run a1 (stopTimer rec.timer (run a0 s))).timers = s.timers := by
    rw [f1.2.1, g2, f0.2.1]
  have hint : (run a2 (run a1 (stopTimer rec.timer (run a0 s)))).intervals = s.intervals := by
    rw [f2.2.2.1, f1.2.2.1, g3, f0.2.2.1]
  simp only [clearTimeoutAmong, h]
  refine ⟨?_, ?_, ?_, ?_, htim⟩
  · show (run a5 _).output = _
    rw [f5.1, f4.1, f3.1]
    show Output.Flush (Output.Write _ (run a2 _).output) = _
    rw [hout]
  · show GoMap.delete (run a5 _).timers id = _
    rw [f5.2.1, f4.2.1, f3.2.1]
    show GoMap.delete (run a2 _).timers id = _
    rw [f2.2.1, htim]
  · show (run a5 _).intervals = _
    rw [f5.2.2.1, f4.2.2.1, f3.2.2.1]
    exact hint
  · intro rt hrt harmed
    have k1 := stopTimer_armed rec.timer (run a0 s) rt hrt harmed
    have k2 := f2.2.2.2 _ _ (f1.2.2.2 _ _ k1 rfl) rfl
    show (run a5 _).afterFuncs[rec.timer]? = _
    exact f5.2.2.2 _ _ (f4.2.2.2 _ _ (f3.2.2.2 _ _ k2 rfl) rfl) rfl

/-! ## The firing of a timeout among other steps -/

theorem view_step_quiet (h : Nat) (rt : AfterFunc) (s t : State) (tm : GoMap Timer)
    (o : Output) (st : Stage) (a : Action)
    (hv : FiringView h rt s t tm o st)
    (hq : a.quiet = true ∧ a ≠ .expire h ∧ a ≠ .callbackSince h) :
    FiringView h rt s (step a t) tm o st := by
  obtain ⟨v1, v2, v3, v4, v5, v6, v7⟩ := hv
  obtain ⟨q1, q2, q3⟩ := hq
  rw [step_of_running a t v5 v6]
  cases a with
  | clock c => exact ⟨v1, v2, v3, v4, v5, v6, v7⟩
  | expire h0 =>
    have hne : h0 ≠ h := fun e => q2 (by rw [e])
    show FiringView h rt s (expire h0 t) tm o st
    unfold expire
    split
    · split
      · exact ⟨v1, v2, v3, by simp [v4], v5, v6, by
          show (t.afterFuncs.set h0 _)[h]? = _
          rw [List.getElem?_set_ne hne]; exact v7⟩
      · exact ⟨v1, v2, v3, v4, v5, v6, v7⟩
    · exact ⟨v1, v2, v3, v4, v5, v6, v7⟩
  | callbackSince h0 =>
    have hne : h0 ≠ h := fun e => q3 (by rw [e])
    show FiringView h rt s (callbackSince h0 t) tm o st
    unfold callbackSince
    split
    · split
      · exact ⟨v1, v2, v3, by simp [v4], v5, v6, by
          show (t.afterFuncs.set h0 _)[h]? = _
          rw [List.getElem?_set_ne hne]; exact v7⟩
      · exact ⟨v1, v2, v3, v4, v5, v6, v7⟩
    · exact ⟨v1, v2, v3, v4, v5, v6, v7⟩
  | tickerSend tk =>
    show FiringView h rt s (tickerSend tk t) tm o st
    unfold tickerSend
    split
    · split
      · exact ⟨v1, v2, v3, v4, v5, v6, v7⟩
      · exact ⟨v1, v2, v3, v4, v5, v6, v7⟩
    · exact ⟨v1, v2, v3, v4, v5, v6, v7⟩
  | taskTick k =>
    show FiringView h rt s (taskTick k t) tm o st
    unfold taskTick
    split
    · split
      · split
        · split
          · exact ⟨v1, v2, v3, v4, v5, v6, v7⟩
          · exact ⟨v1, v2, v3, v4, v5, v6, v7⟩
        · exact ⟨v1, v2, v3, v4, v5, v6, v7⟩
      · exact ⟨v1, v2, v3, v4, v5, v6, v7⟩
    · exact ⟨v1, v2, v3, v4, v5, v6, v7⟩
  | taskQuit k =>
    show FiringView h rt s (taskQuit k t) tm o st
    unfold taskQuit
    split
    · split
      · exact ⟨v1, v2, v3, v4, v5, v6, v7⟩
      · exact ⟨v1, v2, v3, v4, v5, v6, v7⟩
    · exact ⟨v1, v2, v3, v4, v5, v6, v7⟩
  | taskDefault k =>
    show FiringView h rt s (taskDefault k t) tm o st
    unfold taskDefault
    split
    · split
      · exact ⟨v1, v2, v3, v4, v5, v6, v7⟩
      · exact ⟨v1, v2, v3, v4, v5, v6, v7⟩
    · exact ⟨v1, v2, v3, v4, v5, v6, v7⟩
  | stdout room => exact absurd q1 (by simp [Action.quiet])
  | line l => exact absurd q1 (by simp [Action.quiet])
  | eof => exact absurd q1 (by simp [Action.quiet])
  | callbackDelete h => exact absurd q1 (by simp [Action.quiet])
  | callbackFprintf h => exact absurd q1 (by simp [Action.quiet])
  | callbackFlush h => exact absurd q1 (by simp [Action.quiet])
  | callbackSettle h => exact absurd q1 (by simp [Action.quiet])
  | taskFprintf k => exact absurd q1 (by simp [Action.quiet])
  | taskFlush k => exact absurd q1 (by simp [Action.quiet])
  | taskSettle k => exact absurd q1 (by simp [Action.quiet])

theorem view_run_quiet (h : Nat) (rt : AfterFunc) (s : State) (tm : GoMap Timer)
    (o : Output) (st : Stage) (as : List Action) (t : State)
    (hv : FiringView h rt s t tm o st)
    (hq : ∀ a ∈ as, a.quiet = true ∧ a ≠ .expire h ∧ a ≠ .callbackSince h) :
    FiringView h rt s (run as t) tm o st := by
  induction as generalizing t with
  | nil => exact hv
  | cons a as ih =>
    show FiringView h rt s (run as (step a t)) tm o st
    exact ih (step a t)
      (view_step_quiet h rt s t tm o st a hv (hq a (List.mem_cons_self a as)))
      (fun b hb => hq b (List.mem_cons_of_mem a hb))

theorem view_expire (h : Nat) (rt : AfterFunc) (s t : State) (tm : GoMap Timer)
    (o : Output) (hv : FiringView h rt s t tm o .armed)
    (hdue : rt.startTime + max rt.duration 0 ≤ t.clock) :
    FiringView h rt s (step (.expire h) t) tm o .fired ∧
    (step (.expire h) t).clock = t.clock := by
  obtain ⟨v1, v2, v3, v4, v5, v6, v7⟩ := hv
  have hl := (List.getElem?_eq_some.1 v7).1
  have e : step (.expire h) t
      = { t with afterFuncs := t.afterFuncs.set h { rt with stage := .fired } } := by
    simp [step, expire, v5, v6, v7, hdue]
  rw [e]
  exact ⟨⟨v1, v2, v3, by simp [v4], v5, v6, by simp [List.getElem?_set, hl]⟩, rfl⟩

theorem view_since (h : Nat) (rt : AfterFunc) (s t : State) (tm : GoMap Timer)
    (o : Output) (hv : FiringView h rt s t tm o .fired) :
    FiringView h rt s (step (.callbackSince h) t) tm o (.measured (t.clock - rt.startTime)) := by
  obtain ⟨v1, v2, v3, v4, v5, v6, v7⟩ := hv
  have hl := (List.getElem?_eq_some.1 v7).1
  have e : step (.callbackSince h) t
      = { t with afterFuncs :=
            t.afterFuncs.set h ({ rt with stage := .measured (t.clock - rt.startTime) }) } := by
    simp [step, callbackSince, v5, v6, v7]
  rw [e]
  exact ⟨v1, v2, v3, by simp [v4], v5, v6, by simp [List.getElem?_set, hl]⟩

theorem view_delete (h : Nat) (rt : AfterFunc) (s t : State) (tm : GoMap Timer)
    (o : Output) (w : Int) (hv : FiringView h rt s t tm o (.measured w)) :
    FiringView h rt s (step (.callbackDelete h) t) (tm.delete rt.timerID) o (.removed w) := by
  obtain ⟨v1, v2, v3, v4, v5, v6, v7⟩ := hv
  have hl := (List.getElem?_eq_some.1 v7).1
  have e : step (.callbackDelete h) t
      = { t with
          timers := t.timers.delete rt.timerID
          afterFuncs := t.afterFuncs.set h { rt with stage := .removed w } } := by
    simp [step, callbackDelete, v5, v6, v7]
  rw [e]
  exact ⟨v1, by rw [← v2], v3, by simp [v4], v5, v6, by simp [List.getElem?_set, hl]⟩

theorem view_fprintf (h : Nat) (rt : AfterFunc) (s t : State) (tm : GoMap Timer)
    (o : Output) (w : Int) (hv : FiringView h rt s t tm o (.removed w)) :
    FiringView h rt s (step (.callbackFprintf h) t) tm
      (o.Write (fmtTimeout rt.timerID w)) .printed := by
  obtain ⟨v1, v2, v3, v4, v5, v6, v7⟩ := hv
  have hl := (List.getElem?_eq_some.1 v7).1
  have e : step (.callbackFprintf h) t
      = { t with
          output := t.output.Write (fmtTimeout rt.timerID w)
          afterFuncs := t.afterFuncs.set h { rt with stage := .printed } } := by
    simp [step, callbackFprintf, Fprintf, v5, v6, v7]
  rw [e]
  exact ⟨by rw [← v1], v2, v3, by simp [v4], v5, v6, by simp [List.getElem?_set, hl]⟩

theorem view_flush_settle (h : Nat) (rt : AfterFunc) (s t : State) (tm : GoMap Timer)
    (o : Output) (a5 : List Action) (hv : FiringView h rt s t tm o .printed)
    (hq : ∀ a ∈ a5, a.quiet = true ∧ a ≠ .expire h ∧ a ≠ .callbackSince h) :
    FiringView h rt s (step (.callbackSettle h) (run a5 (step (.callbackFlush h) t))) tm
      o.Flush .finished := by
  obtain ⟨v1, v2, v3, v4, v5, v6, v7⟩ := hv
  have hl := (List.getElem?_eq_some.1 v7).1
  by_cases hidle : t.output.err = true ∨ t.output.buf.length = 0
  · have hidle2 := hidle
    simp only [List.length_eq_zero] at hidle2
    have e : step (.callbackFlush h) t
        = { t with afterFuncs := t.afterFuncs.set h { rt with stage := .finished } } := by
      simp only [step, v5, v6, Bool.false_eq_true, if_false, callbackFlush]
      simp [v7, hidle2]
    have hv2 : FiringView h rt s (step (.callbackFlush h) t) tm o.Flush .finished := by
      rw [e]
      exact ⟨by rw [← v1, flush_of_idle _ hidle], v2, v3, by simp [v4], v5, v6,
        by simp [List.getElem?_set, hl]⟩
    have hv3 := view_run_quiet h rt s tm o.Flush .finished a5 _ hv2 hq
    generalize run a5 (step (.callbackFlush h) t) = u at hv3 ⊢
    obtain ⟨w1, w2, w3, w4, w5, w6, w7⟩ := hv3
    have e2 : step (.callbackSettle h) u = u := by
      simp [step, callbackSettle, w5, w6, w7]
    rw [e2]
    exact ⟨w1, w2, w3, w4, w5, w6, w7⟩
  · have hidle2 := hidle
    simp only [List.length_eq_zero] at hidle2
    have e : step (.callbackFlush h) t
        = { t with
            output := (t.output.stdoutWrite t.output.buf).1
            afterFuncs := t.afterFuncs.set h
              ⟨rt.timerID, rt.startTime, rt.duration,
                .settling (t.output.stdoutWrite t.output.buf).2.1
                  (t.output.stdoutWrite t.output.buf).2.2⟩ } := by
      simp only [step, v5, v6, Bool.false_eq_true, if_false, callbackFlush]
      simp [v7, hidle2]
    have hv2 : FiringView h rt s (step (.callbackFlush h) t) tm
        (t.output.stdoutWrite t.output.buf).1
        (.settling (t.output.stdoutWrite t.output.buf).2.1
          (t.output.stdoutWrite t.output.buf).2.2) := by
      rw [e]
      exact ⟨rfl, v2, v3, by simp [v4], v5, v6, by simp [List.getElem?_set, hl]⟩
    have hv3 := view_run_quiet h rt s tm _ _ a5 _ hv2 hq
    generalize run a5 (step (.callbackFlush h) t) = u at hv3 ⊢
    obtain ⟨w1, w2, w3, w4, w5, w6, w7⟩ := hv3
    have hl2 := (List.getElem?_eq_some.1 w7).1
    have e2 : step (.callbackSettle h) u
        = { u with
            output := u.output.flushSettle
              (t.output.stdoutWrite t.output.buf).2.1 (t.output.stdoutWrite t.output.buf).2.2
            afterFuncs := u.afterFuncs.set h ({ rt with stage := .finished }) } := by
      simp [step, callbackSettle, w5, w6, w7]
    rw [e2]
    refine ⟨?_, w2, w3, by simp [w4], w5, w6, by simp [List.getElem?_set, hl2]⟩
    show Output.flushSettle _ _ u.output = _
    rw [w1, flush_halves _ hidle, v1]

theorem run_firingToDelete (h : Nat) (a0 a1 a2 : List Action) (s : State) :
    run (firingToDelete h a0 a1 a2) s
      = step (.callbackDelete h) (run a2 (step (.callbackSince h)
          (run a1 (step (.expire h) (run a0 s))))) := by
  simp only [firingToDelete, run_append]
  rfl

theorem run_firingAmong (h : Nat) (a0 a1 a2 a3 a4 a5 : List Action) (s : State) :
    run (firingAmong h a0 a1 a2 a3 a4 a5) s
      = step (.callbackSettle h) (run a5 (step (.callbackFlush h) (run a4
          (step (.callbackFprintf h) (run a3 (run (firingToDelete h a0 a1 a2) s)))))) := by
  simp only [firingAmong, run_append]
  rfl

theorem run_to_since (h : Nat) (a0 a1 : List Action) (s : State) :
    run (a0 ++ [.expire h] ++ a1) s = run a1 (step (.expire h) (run a0 s)) := by
  simp only [run_append]
  rfl

/-- The firing of the armed runtime timer `h`, due when the runtime looks at
it, among steps that use neither the writer nor the lock and are not the steps
of the firing itself: what is seen of the state after the `delete` and at the
end. -/
theorem firing_among (s : State) (h : Nat) (rt : AfterFunc) (a0 a1 a2 a3 a4 a5 : List Action)
    (hp : s.panicked = false) (hrun : s.exited = false)
    (hrt : s.afterFuncs[h]? = some rt) (harmed : rt.stage = .armed)
    (hdue : rt.startTime + max rt.duration 0 ≤ (run a0 s).clock)
    (q0 : ∀ a ∈ a0, a.quiet = true ∧ a ≠ .expire h ∧ a ≠ .callbackSince h)
    (q1 : ∀ a ∈ a1, a.quiet = true ∧ a ≠ .expire h ∧ a ≠ .callbackSince h)
    (q2 : ∀ a ∈ a2, a.quiet = true ∧ a ≠ .expire h ∧ a ≠ .callbackSince h)
    (q3 : ∀ a ∈ a3, a.quiet = true ∧ a ≠ .expire h ∧ a ≠ .callbackSince h)
    (q4 : ∀ a ∈ a4, a.quiet = true ∧ a ≠ .expire h ∧ a ≠ .callbackSince h)
    (q5 : ∀ a ∈ a5, a.quiet = true ∧ a ≠ .expire h ∧ a ≠ .callbackSince h) :
    FiringView h rt s (run (firingToDelete h a0 a1 a2) s) (s.timers.delete rt.timerID)
      s.output (.removed ((run (a0 ++ [.expire h] ++ a1) s).clock - rt.startTime)) ∧
    FiringView h rt s (run (firingAmong h a0 a1 a2 a3 a4 a5) s) (s.timers.delete rt.timerID)
      (s.output.Write (fmtTimeout rt.timerID
        ((run (a0 ++ [.expire h] ++ a1) s).clock - rt.startTime))).Flush .finished := by
  have heta : ({ rt with stage := .armed } : AfterFunc) = rt := by
    obtain ⟨tid, st, du, sg⟩ := rt
    simp only at harmed
    subst harmed
    rfl
  have v0 : FiringView h rt s s s.timers s.output .armed :=
    ⟨rfl, rfl, rfl, rfl, hp, hrun, by rw [heta]; exact hrt⟩
  have v1 := view_run_quiet h rt s _ _ _ a0 s v0 q0
  have v2 := (view_expire h rt s _ _ _ v1 hdue).1
  have v3 := view_run_quiet h rt s _ _ _ a1 _ v2 q1
  have v4 := view_since h rt s _ _ _ v3
  have v5 := view_run_quiet h rt s _ _ _ a2 _ v4 q2
  have v6 := view_delete h rt s _ _ _ _ v5
  rw [run_firingAmong, run_firingToDelete, run_to_since]
  refine ⟨v6, ?_⟩
  have v7 := view_run_quiet h rt s _ _ _ a3 _ v6 q3
  have v8 := view_fprintf h rt s _ _ _ _ v7
  have v9 := view_run_quiet h rt s _ _ _ a4 _ v8 q4
  exact view_flush_settle h rt s _ _ _ a5 v9 q5

/-! ## The output lines, the go routine after its return, and the command loop -/

theorem fmtTimeout_eq (id : GoString) (w : Int) :
    fmtTimeout id w = str "timeout " ++ id ++ str " " ++ str (toString w) ++ str "\n" := rfl

theorem fmtClearedTimeout_eq (id : GoString) (w : Int) :
    fmtClearedTimeout id w
      = str "clearedTimeout " ++ id ++ str " " ++ str (toString w) ++ str "\n" := rfl

theorem fmtInterval_c : fmtInterval (str "c") = str "interval c\n" := by decide

/-- A go routine that has returned does nothing any more. -/
theorem task_exited (k : Nat) (t : State) (id : GoString) (tk : Option Nat) (q : Nat)
    (ht : t.tasks[k]? = some ⟨id, tk, q, .exited⟩) :
    taskDefault k t = t ∧ taskFprintf k t = t ∧ taskFlush k t = t ∧ taskSettle k t = t ∧
    taskQuit k t = t ∧ taskTick k t = t := by
  refine ⟨?_, ?_, ?_, ?_, ?_, ?_⟩
  · simp [taskDefault, ht]
  · simp [taskFprintf, ht]
  · simp [taskFlush, ht]
  · simp [taskSettle, ht]
  · simp [taskQuit, ht]
  · unfold taskTick
    rw [ht]
    simp only
    split
    · split <;> simp
    · rfl

theorem write_flush_idle (p : GoString) (o : Output) (hp : p ≠ [])
    (he : o.err = false) (hb : o.buf = []) (hr : o.room = none) :
    (o.Write p).Flush = { o with out := o.out ++ [p] } := by
  have hw : o.Ready p.length := ⟨he, hb, by rw [hr]; trivial⟩
  rw [flush_write_ready p o hp hw]
  obtain ⟨buf, err, room, out⟩ := o
  simp only at he hb hr
  subst he hb hr
  rfl

theorem write_idle_short (p : GoString) (o : Output)
    (he : o.err = false) (hb : o.buf = []) (hl : p.length ≤ defaultBufSize) :
    o.Write p = { o with buf := p } := by
  obtain ⟨buf, err, room, out⟩ := o
  simp only at he hb
  subst he hb
  have hnot : ¬ p.length > defaultBufSize := by omega
  simp [Output.Write, Output.writeLoop, hnot]

theorem mainStep_setInterval_zero (u : Byte) (hu : u ∈ unitBytes) (s : State) :
    mainStep (str "setInterval c 0" ++ [u]) s = setInterval (str "c") 0 s := by
  simp only [unitBytes, List.mem_cons, List.mem_singleton, List.not_mem_nil, or_false] at hu
  have hne1 : str "setInterval" ≠ str "setTimeout" := by decide
  have hne2 : str "setInterval" ≠ str "clearTimeout" := by decide
  rcases hu with h | h | h | h <;> subst h
  · have hf : Fields (str "setInterval c 0" ++ [chr 's'])
        = [str "setInterval", str "c", str "0s"] := by decide
    have hd : parseDuration (str "0s") = (0, none) := by decide
    simp only [mainStep, hf, hd, hne1, hne2, if_true, if_false]
  · have hf : Fields (str "setInterval c 0" ++ [chr 'm'])
        = [str "setInterval", str "c", str "0m"] := by decide
    have hd : parseDuration (str "0m") = (0, none) := by decide
    simp only [mainStep, hf, hd, hne1, hne2, if_true, if_false]
  · have hf : Fields (str "setInterval c 0" ++ [chr 'u'])
        = [str "setInterval", str "c", str "0u"] := by decide
    have hd : parseDuration (str "0u") = (0, none) := by decide
    simp only [mainStep, hf, hd, hne1, hne2, if_true, if_false]
  · have hf : Fields (str "setInterval c 0" ++ [chr 'n'])
        = [str "setInterval", str "c", str "0n"] := by decide
    have hd : parseDuration (str "0n") = (0, none) := by decide
    simp only [mainStep, hf, hd, hne1, hne2, if_true, if_false]

theorem mainStep_clearInterval_c (s : State) :
    mainStep (str "clearInterval c") s = clearInterval (str "c") s := by
  have hf : Fields (str "clearInterval c") = [str "clearInterval", str "c"] := by decide
  have hne1 : str "clearInterval" ≠ str "setTimeout" := by decide
  have hne2 : str "clearInterval" ≠ str "clearTimeout" := by decide
  have hne3 : str "clearInterval" ≠ str "setInterval" := by decide
  simp only [mainStep, hf, hne1, hne2, hne3, if_true, if_false]

theorem main_of_stopped (lines : List GoString) (s : State)
    (h : s.panicked = true ∨ s.exited = true) : main lines s = s := by
  unfold main
  rcases h with h | h
  · simp [h]
  · simp [h]

theorem main_cons (raw : GoString) (rest : List GoString) (s : State)
    (hp : s.panicked = false) (he : s.exited = false) :
    main (raw :: rest) s = main rest (readLine raw s) := by
  rw [main]
  simp [hp, he]

theorem readLine_of_short (raw : GoString) (s : State) (h : raw.length < MaxScanTokenSize) :
    readLine raw s = mainStep (dropCR raw) s := by
  unfold readLine
  rw [if_neg (by omega)]

theorem readLine_of_long (raw : GoString) (s : State) (h : MaxScanTokenSize ≤ raw.length) :
    readLine raw s = { s with exited := true } := by
  unfold readLine
  rw [if_pos h]

theorem main_of_noop (raw : GoString) (rest : List GoString) (s : State)
    (h : readLine raw s = s) : main (raw :: rest) s = main rest s := by
  by_cases hstop : s.panicked = true ∨ s.exited = true
  · rw [main_of_stopped _ s hstop, main_of_stopped _ s hstop]
  · have hp : s.panicked = false := by
      cases hh : s.panicked with
      | false => rfl
      | true => exact absurd (Or.inl hh) hstop
    have he : s.exited = false := by
      cases hh : s.exited with
      | false => rfl
      | true => exact absurd (Or.inr hh) hstop
    rw [main_cons raw rest s hp he, h]

theorem fields_scan_blanks (n : Nat) : Fields.scan (List.replicate n (chr ' ')) 0 [] = [] := by
  induction n with
  | zero => rfl
  | succ n ih =>
    have hw : spaceWidth (chr ' ' :: List.replicate n (chr ' ')) = 1 := by
      simp [spaceWidth, chr]
    rw [List.replicate_succ, Fields.scan, hw]
    simp [flushField, ih]

theorem malformed_blanks (n : Nat) : Malformed (List.replicate n (chr ' ')) := by
  refine Or.inl ?_
  unfold Fields
  rw [fields_scan_blanks]
  decide

theorem malformed_longLine : Malformed longLine := malformed_blanks _

theorem dropCR_blanks (n : Nat) :
    dropCR (List.replicate n (chr ' ')) = List.replicate n (chr ' ') := by
  unfold dropCR
  rw [if_neg]
  intro h
  have hm := List.mem_of_getLast?_eq_some h
  rw [List.mem_replicate] at hm
  exact absurd hm.2 (by decide)

/-! ## The zero-duration go routine among other steps -/

theorem besideTask_iff (k : Nat) (a : Action) (h : a.besideTask k = true) :
    a.quiet = true ∧ a ≠ .taskTick k ∧ a ≠ .taskQuit k ∧ a ≠ .taskDefault k := by
  simp only [Action.besideTask, Bool.and_eq_true, decide_eq_true_eq] at h
  exact ⟨h.1.1.1, h.1.1.2, h.1.2, h.2⟩

theorem tview_step_quiet (k q : Nat) (t : State) (o : Output) (pc : Pc) (cl : Bool)
    (iv : Option Interval) (a : Action) (hv : TaskView k q t o pc cl iv)
    (hq : a.besideTask k = true) : TaskView k q (step a t) o pc cl iv := by
  obtain ⟨v1, v2, v3, v4, v5, v6⟩ := hv
  obtain ⟨q1, q2, q3, q4⟩ := besideTask_iff k a hq
  rw [step_of_running a t v5 v6]
  cases a with
  | clock c => exact ⟨v1, v2, v3, v4, v5, v6⟩
  | expire h0 =>
    show TaskView k q (expire h0 t) o pc cl iv
    unfold expire
    split
    · split
      · exact ⟨v1, v2, v3, v4, v5, v6⟩
      · exact ⟨v1, v2, v3, v4, v5, v6⟩
    · exact ⟨v1, v2, v3, v4, v5, v6⟩
  | callbackSince h0 =>
    show TaskView k q (callbackSince h0 t) o pc cl iv
    unfold callbackSince
    split
    · split
      · exact ⟨v1, v2, v3, v4, v5, v6⟩
      · exact ⟨v1, v2, v3, v4, v5, v6⟩
    · exact ⟨v1, v2, v3, v4, v5, v6⟩
  | tickerSend tk =>
    show TaskView k q (tickerSend tk t) o pc cl iv
    unfold tickerSend
    split
    · split
      · exact ⟨v1, v2, v3, v4, v5, v6⟩
      · exact ⟨v1, v2, v3, v4, v5, v6⟩
    · exact ⟨v1, v2, v3, v4, v5, v6⟩
  | taskTick k0 =>
    have hne : k0 ≠ k := fun e => q2 (by rw [e])
    show TaskView k q (taskTick k0 t) o pc cl iv
    unfold taskTick
    split
    · split
      · split
        · split
          · exact ⟨v1, by
              show (t.tasks.set k0 _)[k]? = _
              rw [List.getElem?_set_ne hne]; exact v2, v3, v4, v5, v6⟩
          · exact ⟨v1, v2, v3, v4, v5, v6⟩
        · exact ⟨v1, v2, v3, v4, v5, v6⟩
      · exact ⟨v1, v2, v3, v4, v5, v6⟩
    · exact ⟨v1, v2, v3, v4, v5, v6⟩
  | taskQuit k0 =>
    have hne : k0 ≠ k := fun e => q3 (by rw [e])
    show TaskView k q (taskQuit k0 t) o pc cl iv
    unfold taskQuit
    split
    · split
      · exact ⟨v1, by
          show (t.tasks.set k0 _)[k]? = _
          rw [List.getElem?_set_ne hne]; exact v2, v3, v4, v5, v6⟩
      · exact ⟨v1, v2, v3, v4, v5, v6⟩
    · exact ⟨v1, v2, v3, v4, v5, v6⟩
  | taskDefault k0 =>
    have hne : k0 ≠ k := fun e => q4 (by rw [e])
    show TaskView k q (taskDefault k0 t) o pc cl iv
    unfold taskDefault
    split
    · split
      · exact ⟨v1, by
          show (t.tasks.set k0 _)[k]? = _
          rw [List.getElem?_set_ne hne]; exact v2, v3, v4, v5, v6⟩
      · exact ⟨v1, v2, v3, v4, v5, v6⟩
    · exact ⟨v1, v2, v3, v4, v5, v6⟩
  | stdout room => exact absurd q1 (by simp [Action.quiet])
  | line l => exact absurd q1 (by simp [Action.quiet])
  | eof => exact absurd q1 (by simp [Action.quiet])
  | callbackDelete h => exact absurd q1 (by simp [Action.quiet])
  | callbackFprintf h => exact absurd q1 (by simp [Action.quiet])
  | callbackFlush h => exact absurd q1 (by simp [Action.quiet])
  | callbackSettle h => exact absurd q1 (by simp [Action.quiet])
  | taskFprintf k => exact absurd q1 (by simp [Action.quiet])
  | taskFlush k => exact absurd q1 (by simp [Action.quiet])
  | taskSettle k => exact absurd q1 (by simp [Action.quiet])

theorem tview_run_quiet (k q : Nat) (o : Output) (pc : Pc) (cl : Bool)
    (iv : Option Interval) (as : List Action) (t : State)
    (hv : TaskView k q t o pc cl iv) (hq : ∀ a ∈ as, a.besideTask k = true) :
    TaskView k q (run as t) o pc cl iv := by
  induction as generalizing t with
  | nil => exact hv
  | cons a as ih =>
    show TaskView k q (run as (step a t)) o pc cl iv
    exact ih (step a t) (tview_step_quiet k q t o pc cl iv a hv (hq a (List.mem_cons_self a as)))
      (fun b hb => hq b (List.mem_cons_of_mem a hb))

theorem tview_default (k q : Nat) (t : State) (o : Output) (iv : Option Interval)
    (hv : TaskView k q t o .select false iv) :
    TaskView k q (step (.taskDefault k) t) o .write false iv := by
  obtain ⟨v1, v2, v3, v4, v5, v6⟩ := hv
  have hl := (List.getElem?_eq_some.1 v2).1
  have e : step (.taskDefault k) t
      = { t with tasks := t.tasks.set k ⟨str "c", none, q, .write⟩ } := by
    simp [step, taskDefault, v2, v3, v5, v6]
  rw [e]
  exact ⟨v1, by simp [List.getElem?_set, hl], v3, v4, v5, v6⟩

theorem tview_fprintf (k q : Nat) (t : State) (o : Output) (cl : Bool)
    (iv : Option Interval) (hv : TaskView k q t o .write cl iv) :
    TaskView k q (step (.taskFprintf k) t) (o.Write (str "interval c\n")) .flush cl iv := by
  obtain ⟨v1, v2, v3, v4, v5, v6⟩ := hv
  have hl := (List.getElem?_eq_some.1 v2).1
  have e : step (.taskFprintf k) t
      = { t with
          output := t.output.Write (str "interval c\n")
          tasks := t.tasks.set k ⟨str "c", none, q, .flush⟩ } := by
    simp [step, taskFprintf, Fprintf, v2, v5, v6, fmtInterval_c]
  rw [e]
  exact ⟨by rw [← v1], by simp [List.getElem?_set, hl], v3, v4, v5, v6⟩

theorem tview_flush (k q : Nat) (t : State) (o : Output) (cl : Bool)
    (iv : Option Interval) (hv : TaskView k q t o .flush cl iv)
    (hbusy : ¬ (o.err = true ∨ o.buf.length = 0)) :
    TaskView k q (step (.taskFlush k) t) (o.stdoutWrite o.buf).1
      (.settle (o.stdoutWrite o.buf).2.1 (o.stdoutWrite o.buf).2.2) cl iv := by
  obtain ⟨v1, v2, v3, v4, v5, v6⟩ := hv
  subst v1
  have hl := (List.getElem?_eq_some.1 v2).1
  have hbusy2 := hbusy
  simp only [List.length_eq_zero] at hbusy2
  have e : step (.taskFlush k) t
      = { t with
          output := (t.output.stdoutWrite t.output.buf).1
          tasks := t.tasks.set k ⟨str "c", none, q,
            .settle (t.output.stdoutWrite t.output.buf).2.1
              (t.output.stdoutWrite t.output.buf).2.2⟩ } := by
    simp only [step, v5, v6, Bool.false_eq_true, if_false, taskFlush]
    simp [v2, hbusy2]
  rw [e]
  exact ⟨rfl, by simp [List.getElem?_set, hl], v3, v4, v5, v6⟩

theorem tview_settle (k q : Nat) (t : State) (o : Output) (cl : Bool)
    (iv : Option Interval) (n : Nat) (err : Bool)
    (hv : TaskView k q t o (.settle n err) cl iv) :
    TaskView k q (step (.taskSettle k) t) (o.flushSettle n err) .select cl iv := by
  obtain ⟨v1, v2, v3, v4, v5, v6⟩ := hv
  subst v1
  have hl := (List.getElem?_eq_some.1 v2).1
  have e : step (.taskSettle k) t
      = { t with
          output := t.output.flushSettle n err
          tasks := t.tasks.set k ⟨str "c", none, q, .select⟩ } := by
    simp [step, taskSettle, v2, v5, v6]
  rw [e]
  exact ⟨rfl, by simp [List.getElem?_set, hl], v3, v4, v5, v6⟩

theorem tview_idle_closed (k q : Nat) (t : State) (o : Output) (iv : Option Interval)
    (hv : TaskView k q t o .select true iv) :
    step (.taskDefault k) t = t ∧ step (.taskFprintf k) t = t ∧
    step (.taskFlush k) t = t ∧ step (.taskSettle k) t = t := by
  obtain ⟨v1, v2, v3, v4, v5, v6⟩ := hv
  refine ⟨?_, ?_, ?_, ?_⟩
  · simp [step, taskDefault, v2, v3, v5, v6]
  · simp [step, taskFprintf, v2, v5, v6]
  · simp [step, taskFlush, v2, v5, v6]
  · simp [step, taskSettle, v2, v5, v6]

theorem tview_quit (k q : Nat) (t : State) (o : Output) (iv : Option Interval)
    (hv : TaskView k q t o .select true iv) :
    TaskView k q (step (.taskQuit k) t) o .exited true iv := by
  obtain ⟨v1, v2, v3, v4, v5, v6⟩ := hv
  have hl := (List.getElem?_eq_some.1 v2).1
  have e : step (.taskQuit k) t
      = { t with tasks := t.tasks.set k ⟨str "c", none, q, .exited⟩ } := by
    simp [step, taskQuit, v2, v3, v5, v6]
  rw [e]
  exact ⟨v1, by simp [List.getElem?_set, hl], v3, v4, v5, v6⟩

theorem tview_clear (k q : Nat) (t : State) (o : Output) (pc : Pc)
    (hv : TaskView k q t o pc false (some ⟨none, q⟩)) :
    TaskView k q (step (.line (str "clearInterval c")) t) o pc true none := by
  obtain ⟨v1, v2, v3, v4, v5, v6⟩ := hv
  have hl := (List.getElem?_eq_some.1 v3).1
  have hshort : (str "clearInterval c").length < MaxScanTokenSize := by decide
  have hcr : dropCR (str "clearInterval c") = str "clearInterval c" := by decide
  have e : step (.line (str "clearInterval c")) t
      = { t with
          chans := t.chans.set q true
          intervals := t.intervals.delete (str "c") } := by
    rw [step_of_running _ t v5 v6]
    show readLine (str "clearInterval c") t = _
    rw [readLine_of_short _ _ hshort, hcr, mainStep_clearInterval_c]
    simp [clearInterval, v4, closeChan, v3]
  rw [e]
  exact ⟨v1, v2, by simp [List.getElem?_set, hl], by simp [GoMap.delete], v5, v6⟩

theorem interval_line_busy (o : Output) (he : o.err = false) (hb : o.buf = []) :
    ¬ ((o.Write (str "interval c\n")).err = true ∨
      (o.Write (str "interval c\n")).buf.length = 0) := by
  rw [write_idle_short _ o he hb (by decide)]
  intro h
  rcases h with h | h
  · rw [he] at h
    exact absurd h (by decide)
  · have hlen : (str "interval c\n").length ≠ 0 := by decide
    exact hlen h

theorem interval_line_settled (o : Output) (he : o.err = false) (hb : o.buf = [])
    (hr : o.room = none) :
    ((o.Write (str "interval c\n")).stdoutWrite (o.Write (str "interval c\n")).buf).1.flushSettle
      ((o.Write (str "interval c\n")).stdoutWrite (o.Write (str "interval c\n")).buf).2.1
      ((o.Write (str "interval c\n")).stdoutWrite (o.Write (str "interval c\n")).buf).2.2
      = { o with out := o.out ++ [str "interval c\n"] } := by
  rw [flush_halves _ (interval_line_busy o he hb)]
  exact write_flush_idle _ o (by decide) he hb hr

theorem run_turnAmong (k : Nat) (b : List Action × List Action × List Action × List Action)
    (t : State) :
    run (turnAmong k b) t
      = step (.taskSettle k) (run b.2.2.2 (step (.taskFlush k) (run b.2.2.1
          (step (.taskFprintf k) (run b.2.1 (step (.taskDefault k) (run b.1 t))))))) := by
  simp only [turnAmong, run_append]
  rfl

theorem tview_turn (k q : Nat) (t : State) (o : Output) (iv : Option Interval)
    (b : List Action × List Action × List Action × List Action)
    (hv : TaskView k q t o .select false iv)
    (he : o.err = false) (hb : o.buf = []) (hr : o.room = none)
    (hq : ∀ a ∈ b.1 ++ b.2.1 ++ b.2.2.1 ++ b.2.2.2, a.besideTask k = true) :
    TaskView k q (run (turnAmong k b) t) { o with out := o.out ++ [str "interval c\n"] }
      .select false iv := by
  have q0 : ∀ a ∈ b.1, a.besideTask k = true := fun a ha => hq a (by simp [ha])
  have q1 : ∀ a ∈ b.2.1, a.besideTask k = true := fun a ha => hq a (by simp [ha])
  have q2 : ∀ a ∈ b.2.2.1, a.besideTask k = true := fun a ha => hq a (by simp [ha])
  have q3 : ∀ a ∈ b.2.2.2, a.besideTask k = true := fun a ha => hq a (by simp [ha])
  have v1 := tview_run_quiet k q _ _ _ _ b.1 t hv q0
  have v2 := tview_default k q _ _ _ v1
  have v3 := tview_run_quiet k q _ _ _ _ b.2.1 _ v2 q1
  have v4 := tview_fprintf k q _ _ _ _ v3
  have v5 := tview_run_quiet k q _ _ _ _ b.2.2.1 _ v4 q2
  have v6 := tview_flush k q _ _ _ _ v5 (interval_line_busy o he hb)
  have v7 := tview_run_quiet k q _ _ _ _ b.2.2.2 _ v6 q3
  have v8 := tview_settle k q _ _ _ _ _ _ v7
  rw [interval_line_settled o he hb hr] at v8
  rw [run_turnAmong]
  exact v8

theorem tview_turns (k q : Nat) (iv : Option Interval)
    (bs : List (List Action × List Action × List Action × List Action))
    (t : State) (o : Output)
    (hv : TaskView k q t o .select false iv)
    (he : o.err = false) (hb : o.buf = []) (hr : o.room = none)
    (hq : ∀ b ∈ bs, ∀ a ∈ b.1 ++ b.2.1 ++ b.2.2.1 ++ b.2.2.2, a.besideTask k = true) :
    TaskView k q (run (turnsAmong k bs) t)
      { o with out := o.out ++ List.replicate bs.length (str "interval c\n") }
      .select false iv := by
  induction bs generalizing t o with
  | nil =>
    have ho : ({ o with out := o.out ++ List.replicate ([] : List (List Action × List Action
        × List Action × List Action)).length (str "interval c\n") } : Output) = o := by
      obtain ⟨buf, err, room, out⟩ := o
      simp
    rw [ho]
    exact hv
  | cons b bs ih =>
    have v1 := tview_turn k q t o iv b hv he hb hr (hq b (List.mem_cons_self b bs))
    have v2 := ih (run (turnAmong k b) t) { o with out := o.out ++ [str "interval c\n"] }
      v1 he hb hr (fun b2 hb2 => hq b2 (List.mem_cons_of_mem b hb2))
    have ho : ({ ({ o with out := o.out ++ [str "interval c\n"] } : Output) with
        out := (o.out ++ [str "interval c\n"])
          ++ List.replicate bs.length (str "interval c\n") } : Output)
        = { o with out := o.out ++ List.replicate (b :: bs).length (str "interval c\n") } := by
      simp [List.replicate_succ]
    rw [ho] at v2
    show TaskView k q (run (turnAmong k b ++ turnsAmong k bs) t) _ _ _ _
    rw [run_append]
    exact v2

theorem tview_clearAmong (k q j : Nat) (t : State) (o : Output) (b0 b1 b2 b3 c : List Action)
    (hv : TaskView k q t o .select false (some ⟨none, q⟩))
    (he : o.err = false) (hb : o.buf = []) (hr : o.room = none) (hj : j ≤ 3)
    (hq : ∀ a ∈ b0 ++ b1 ++ b2 ++ b3 ++ c, a.besideTask k = true) :
    TaskView k q (run (clearAmong k j b0 b1 b2 b3 c) t)
      { o with out := o.out ++ (if j = 0 then [] else [str "interval c\n"]) }
      .exited true none := by
  have q0 : ∀ a ∈ b0, a.besideTask k = true := fun a ha => hq a (by simp [ha])
  have q1 : ∀ a ∈ b1, a.besideTask k = true := fun a ha => hq a (by simp [ha])
  have q2 : ∀ a ∈ b2, a.besideTask k = true := fun a ha => hq a (by simp [ha])
  have q3 : ∀ a ∈ b3, a.besideTask k = true := fun a ha => hq a (by simp [ha])
  have qc : ∀ a ∈ c, a.besideTask k = true := fun a ha => hq a (by simp [ha])
  have hbusy := interval_line_busy o he hb
  have hj4 : j = 0 ∨ j = 1 ∨ j = 2 ∨ j = 3 := by omega
  rcases hj4 with hj0 | hj1 | hj2 | hj3
  · subst hj0
    have ho : ({ o with out := o.out ++ (if (0 : Nat) = 0 then [] else [str "interval c\n"]) }
        : Output) = o := by
      obtain ⟨buf, err, room, out⟩ := o
      simp
    rw [ho]
    have e : run (clearAmong k 0 b0 b1 b2 b3 c) t
        = step (.taskQuit k) (run c (step (.taskSettle k) (run b3 (step (.taskFlush k)
            (run b2 (step (.taskFprintf k) (run b1 (step (.taskDefault k)
              (run b0 (step (.line (str "clearInterval c")) t))))))))))  := by
      simp only [clearAmong, run_append]
      rfl
    rw [e]
    have v0 := tview_clear k q t o _ hv
    have v1 := tview_run_quiet k q _ _ _ _ b0 _ v0 q0
    rw [(tview_idle_closed k q _ o none v1).1]
    have v2 := tview_run_quiet k q _ _ _ _ b1 _ v1 q1
    rw [(tview_idle_closed k q _ o none v2).2.1]
    have v3 := tview_run_quiet k q _ _ _ _ b2 _ v2 q2
    rw [(tview_idle_closed k q _ o none v3).2.2.1]
    have v4 := tview_run_quiet k q _ _ _ _ b3 _ v3 q3
    rw [(tview_idle_closed k q _ o none v4).2.2.2]
    have v5 := tview_run_quiet k q _ _ _ _ c _ v4 qc
    exact tview_quit k q _ _ _ v5
  · subst hj1
    have ho : ({ o with out := o.out ++ (if (1 : Nat) = 0 then [] else [str "interval c\n"]) }
        : Output) = { o with out := o.out ++ [str "interval c\n"] } := by
      simp
    rw [ho]
    have e : run (clearAmong k 1 b0 b1 b2 b3 c) t
        = step (.taskQuit k) (run c (step (.taskSettle k) (run b3 (step (.taskFlush k)
            (run b2 (step (.taskFprintf k) (run b1 (step (.line (str "clearInterval c"))
              (step (.taskDefault k) (run b0 t)))))))))) := by
      simp only [clearAmong, run_append]
      rfl
    rw [e]
    have v1 := tview_run_quiet k q _ _ _ _ b0 _ hv q0
    have v2 := tview_default k q _ _ _ v1
    have v3 := tview_clear k q _ _ _ v2
    have v4 := tview_run_quiet k q _ _ _ _ b1 _ v3 q1
    have v5 := tview_fprintf k q _ _ _ _ v4
    have v6 := tview_run_quiet k q _ _ _ _ b2 _ v5 q2
    have v7 := tview_flush k q _ _ _ _ v6 hbusy
    have v8 := tview_run_quiet k q _ _ _ _ b3 _ v7 q3
    have v9 := tview_settle k q _ _ _ _ _ _ v8
    rw [interval_line_settled o he hb hr] at v9
    have v10 := tview_run_quiet k q _ _ _ _ c _ v9 qc
    exact tview_quit k q _ _ _ v10
  · subst hj2
    have ho : ({ o with out := o.out ++ (if (2 : Nat) = 0 then [] else [str "interval c\n"]) }
        : Output) = { o with out := o.out ++ [str "interval c\n"] } := by
      simp
    rw [ho]
    have e : run (clearAmong k 2 b0 b1 b2 b3 c) t
        = step (.taskQuit k) (run c (step (.taskSettle k) (run b3 (step (.taskFlush k)
            (run b2 (step (.line (str "clearInterval c")) (step (.taskFprintf k)
              (run b1 (step (.taskDefault k) (run b0 t)))))))))) := by
      simp only [clearAmong, run_append]
      rfl
    rw [e]
    have v1 := tview_run_quiet k q _ _ _ _ b0 _ hv q0
    have v2 := tview_default k q _ _ _ v1
    have v3 := tview_run_quiet k q _ _ _ _ b1 _ v2 q1
    have v4 := tview_fprintf k q _ _ _ _ v3
    have v5 := tview_clear k q _ _ _ v4
    have v6 := tview_run_quiet k q _ _ _ _ b2 _ v5 q2
    have v7 := tview_flush k q _ _ _ _ v6 hbusy
    have v8 := tview_run_quiet k q _ _ _ _ b3 _ v7 q3
    have v9 := tview_settle k q _ _ _ _ _ _ v8
    rw [interval_line_settled o he hb hr] at v9
    have v10 := tview_run_quiet k q _ _ _ _ c _ v9 qc
    exact tview_quit k q _ _ _ v10
  · subst hj3
    have ho : ({ o with out := o.out ++ (if (3 : Nat) = 0 then [] else [str "interval c\n"]) }
        : Output) = { o with out := o.out ++ [str "interval c\n"] } := by
      simp
    rw [ho]
    have e : run (clearAmong k 3 b0 b1 b2 b3 c) t
        = step (.taskQuit k) (run c (step (.taskSettle k) (run b3
            (step (.line (str "clearInterval c")) (step (.taskFlush k)
              (run b2 (step (.taskFprintf k) (run b1 (step (.taskDefault k)
                (run b0 t)))))))))) := by
      simp only [clearAmong, run_append]
      rfl
    rw [e]
    have v1 := tview_run_quiet k q _ _ _ _ b0 _ hv q0
    have v2 := tview_default k q _ _ _ v1
    have v3 := tview_run_quiet k q _ _ _ _ b1 _ v2 q1
    have v4 := tview_fprintf k q _ _ _ _ v3
    have v5 := tview_run_quiet k q _ _ _ _ b2 _ v4 q2
    have v6 := tview_flush k q _ _ _ _ v5 hbusy
    have v7 := tview_clear k q _ _ _ v6
    have v8 := tview_run_quiet k q _ _ _ _ b3 _ v7 q3
    have v9 := tview_settle k q _ _ _ _ _ _ v8
    rw [interval_line_settled o he hb hr] at v9
    have v10 := tview_run_quiet k q _ _ _ _ c _ v9 qc
    exact tview_quit k q _ _ _ v10

/-! ## The claims -/

/-- Claim C3 (a defect of the code): on the schedule `raceSchedule` the one
accepted `setTimeout a` is acted upon twice, the line `clearedTimeout a 11` of
the clear being followed by the line `timeout a 12` of the callback that lost
the race; and on `staleSchedule` that callback deletes the record a later
`setTimeout a 1s` made, whose runtime timer stays armed. -/
theorem c3_fire_clear_race :
    (run raceSchedule init).out = [str "clearedTimeout a 11\n", str "timeout a 12\n"] ∧
    (run (staleSchedule.take 8) init).timers (str "a") = some ⟨1, 12⟩ ∧
    (run staleSchedule init).timers (str "a") = none ∧
    (run staleSchedule init).afterFuncs[1]? = some ⟨str "a", 12, 1000000000, .armed⟩ ∧
    (run staleSchedule init).out = [str "clearedTimeout a 11\n", str "timeout a 13\n"] := by
  refine ⟨?_, ?_, ?_, ?_, ?_⟩ <;> decide

/-- Claim C4 as stated fails: the parser accepts `9223372037`, the token
`9223372037s` parses without error, and the duration returned is not
`9223372037 * unitScale(s)` (the product does not fit in 64 bits). -/
theorem c4_overflow_counterexample :
    ParseInt (str "9223372037") = (9223372037, none) ∧
    (parseDuration (str "9223372037s")).2 = none ∧
    (parseDuration (str "9223372037s")).1 ≠ 9223372037 * unitScale (chr 's') := by
  refine ⟨?_, ?_, ?_⟩ <;> decide

/-- Claim C4, amended: for a text `p` the parser accepts with value `n` and a
unit byte `u` among `s`, `m`, `u`, `n`, `parseDuration` succeeds on `p` followed
by `u` and returns `n * unitScale u` reduced to 64 bits (two's complement),
which is `n * unitScale u` itself when that product is in the range of `int64`. -/
theorem c4_parseDuration_value (p : GoString) (u : Byte) (n : Int)
    (hp : ParseInt p = (n, none)) (hu : u ∈ unitBytes) :
    parseDuration (p ++ [u]) = (wrap64 (n * unitScale u), none) ∧
    (-(2 ^ 63) ≤ n * unitScale u → n * unitScale u < 2 ^ 63 →
      parseDuration (p ++ [u]) = (n * unitScale u, none)) := by
  have h := parseDuration_append p u n hp hu
  refine ⟨h, ?_⟩
  intro h1 h2
  rw [h, wrap64_of_range _ h1 h2]

/-- Witness of `c4_parseDuration_value`: the token `500m`. -/
theorem c4_parseDuration_value_witness :
    parseDuration (str "500" ++ [chr 'm']) = (500 * unitScale (chr 'm'), none) :=
  (c4_parseDuration_value (str "500") (chr 'm') 500 (by decide) (by decide)).2
    (by decide) (by decide)

/-- Claim C5: `parseDuration s` returns an error exactly when `s` has fewer
than 2 bytes, or the text before its last byte is not accepted by `ParseInt`, or
its last byte is none of `s`, `m`, `u`, `n`; the length is checked first, then
the text, then the unit; the three errors differ from one another; and the
duration returned with an error is 0. -/
theorem c5_parseDuration_errors (s : GoString) :
    ((parseDuration s).2 ≠ none ↔
      (s.length < 2 ∨ (ParseInt (s.take (s.length - 1))).2 ≠ none ∨
        ¬ ∃ u ∈ unitBytes, s.getLast? = some u)) ∧
    (s.length < 2 → parseDuration s = (0, some (.errorf (str "invalid duration")))) ∧
    (¬ s.length < 2 → ∀ e, (ParseInt (s.take (s.length - 1))).2 = some e →
      parseDuration s = (0, some (.numError (s.take (s.length - 1)) e))) ∧
    (¬ s.length < 2 → (ParseInt (s.take (s.length - 1))).2 = none →
      (¬ ∃ u ∈ unitBytes, s.getLast? = some u) →
      parseDuration s = (0, some (.errorf (str "invalid duration unit")))) ∧
    Error.errorf (str "invalid duration") ≠ Error.errorf (str "invalid duration unit") ∧
    (∀ num e msg, Error.numError num e ≠ Error.errorf msg) ∧
    ((parseDuration s).2 ≠ none → (parseDuration s).1 = 0) := by
  obtain ⟨h1, h2, h3, h4⟩ := parseDuration_cases s
  have hzero : (parseDuration s).2 ≠ none → (parseDuration s).1 = 0 := by
    intro he
    by_cases hl : s.length < 2
    · rw [h1 hl]
    · rcases hpi : (ParseInt (s.take (s.length - 1))).2 with _ | e
      · by_cases hu : ∃ u ∈ unitBytes, s.getLast? = some u
        · exact absurd (h4 hl hpi hu) he
        · rw [h3 hl hpi hu]
      · rw [h2 hl e hpi]
  refine ⟨⟨?_, ?_⟩, h1, h2, h3, by decide, ?_, hzero⟩
  · intro he
    by_cases hl : s.length < 2
    · exact Or.inl hl
    · rcases hpi : (ParseInt (s.take (s.length - 1))).2 with _ | e
      · refine Or.inr (Or.inr ?_)
        intro hu
        exact he (h4 hl hpi hu)
      · exact Or.inr (Or.inl (by simp))
  · intro hc
    by_cases hl : s.length < 2
    · rw [h1 hl]; simp
    · rcases hc with hc | hc | hc
      · exact absurd hc hl
      · rcases hpi : (ParseInt (s.take (s.length - 1))).2 with _ | e
        · exact absurd hpi hc
        · rw [h2 hl e hpi]; simp
      · rcases hpi : (ParseInt (s.take (s.length - 1))).2 with _ | e
        · rw [h3 hl hpi hc]; simp
        · rw [h2 hl e hpi]; simp
  · intro num e msg h
    cases h

/-- Witness of `c5_parseDuration_errors`: the token `5x` has a unit that is not
recognised. -/
theorem c5_parseDuration_errors_witness :
    parseDuration (str "5x") = (0, some (.errorf (str "invalid duration unit"))) :=
  (c5_parseDuration_errors (str "5x")).2.2.2.1 (by decide) (by decide) (by decide)

/-- Claim C7: `setTimeout` for an id that is scheduled and `setInterval` for an
id that is active return the state as it was (both maps, the runtime timers, the
go routines and the output), and two `setTimeout a 100m` lines in a row leave
the state one such line leaves, so one runtime timer and one callback exist. -/
theorem c7_duplicate_set_noop (s : State) (id : GoString) (d : Int) :
    (s.timers id ≠ none → setTimeout id d s = s) ∧
    (s.intervals id ≠ none → setInterval id d s = s) ∧
    main [str "setTimeout a 100m", str "setTimeout a 100m"] s
      = main [str "setTimeout a 100m"] s := by
  refine ⟨?_, ?_, ?_⟩
  · intro h
    cases hr : s.timers id with
    | none => exact absurd hr h
    | some rec => exact setTimeout_present id d s rec hr
  · intro h
    cases hr : s.intervals id with
    | none => exact absurd hr h
    | some iv => exact setInterval_present id d s iv hr
  · have hf : Fields (str "setTimeout a 100m") = [str "setTimeout", str "a", str "100m"] := by
      decide
    have hd : parseDuration (str "100m") = (100000000, none) := by decide
    have hm : ∀ st : State, mainStep (str "setTimeout a 100m") st
        = setTimeout (str "a") 100000000 st := by
      intro st
      simp only [mainStep, hf, hd, if_true]
    have hlen : (str "setTimeout a 100m").length < MaxScanTokenSize := by decide
    have hcr : dropCR (str "setTimeout a 100m") = str "setTimeout a 100m" := by decide
    have hr : ∀ st : State, readLine (str "setTimeout a 100m") st
        = setTimeout (str "a") 100000000 st := by
      intro st
      rw [readLine_of_short _ _ hlen, hcr, hm]
    by_cases hstop : s.panicked = true ∨ s.exited = true
    · rw [main_of_stopped _ s hstop, main_of_stopped _ s hstop]
    · have hp : s.panicked = false := by
        cases hh : s.panicked with
        | false => rfl
        | true => exact absurd (Or.inl hh) hstop
      have he : s.exited = false := by
        cases hh : s.exited with
        | false => rfl
        | true => exact absurd (Or.inr hh) hstop
      rw [main_cons _ _ s hp he, main_cons _ _ s hp he, hr s]
      have hp2 : (setTimeout (str "a") 100000000 s).panicked = false := by
        unfold setTimeout
        split <;> exact hp
      have he2 : (setTimeout (str "a") 100000000 s).exited = false := by
        unfold setTimeout
        split <;> exact he
      rw [main_cons _ _ _ hp2 he2, hr, setTimeout_twice]

/-- Witness of `c7_duplicate_set_noop`: a second `setTimeout a` in
`scheduledState` and a second `setInterval b` in `activeState`. -/
theorem c7_duplicate_set_noop_witness :
    setTimeout (str "a") 5 scheduledState = scheduledState ∧
    setInterval (str "b") 5 activeState = activeState :=
  ⟨(c7_duplicate_set_noop scheduledState (str "a") 5).1 (by decide),
   (c7_duplicate_set_noop activeState (str "b") 5).2.1 (by decide)⟩

/-- Claim C8: in every reachable state no panic has happened, and for an
active `id` with the record `iv` the quit channel of `iv` is not closed;
`clearInterval id` closes that channel and no other, stops the ticker when there
is one, deletes the record of `id` and no other interval record, leaves the
timeout map and the output as they were, does not panic, and every record that
is left still holds a channel that is not closed. -/
theorem c8_clearInterval_active (s : State) (id : GoString) (iv : Interval)
    (hreach : Reachable s) (h : s.intervals id = some iv) :
    s.panicked = false ∧
    s.chans[iv.quit]? = some false ∧
    (clearInterval id s).chans = s.chans.set iv.quit true ∧
    (clearInterval id s).chans[iv.quit]? = some true ∧
    (∀ tk, iv.ticker = some tk →
      ∃ t, (clearInterval id s).tickers[tk]? = some t ∧ t.stopped = true) ∧
    (clearInterval id s).intervals id = none ∧
    (∀ j, j ≠ id → (clearInterval id s).intervals j = s.intervals j) ∧
    (clearInterval id s).timers = s.timers ∧
    (clearInterval id s).out = s.out ∧
    (clearInterval id s).panicked = false ∧
    (∀ j iv2, (clearInterval id s).intervals j = some iv2 →
      (clearInterval id s).chans[iv2.quit]? = some false) := by
  have hinv := inv_of_reachable hreach
  have ho := hinv.quitOpen id iv h
  have hl := (List.getElem?_eq_some.1 ho).1
  obtain ⟨h1, h2, h3, h4, h5, h6⟩ := clearInterval_present id s iv h ho
  have hinv2 := inv_clearInterval id hinv
  refine ⟨hinv.noPanic, ho, h1, ?_, ?_, ?_, ?_, h3, h4, hinv2.noPanic, hinv2.quitOpen⟩
  · rw [h1]
    simp [List.getElem?_set, hl]
  · intro tk htk
    have hv := hinv.tickerValid id iv tk h htk
    rw [h6, htk]
    simp only [stopTicker]
    have : s.tickers[tk]? = some s.tickers[tk] := List.getElem?_eq_getElem hv
    rw [this]
    refine ⟨{ s.tickers[tk] with stopped := true }, ?_, rfl⟩
    simp [List.getElem?_set, hv]
  · rw [h2]; exact delete_self _ _
  · intro j hj
    rw [h2]; exact delete_ne _ _ _ hj

/-- Witness of `c8_clearInterval_active`: the interval `b` of `activeState` is
cleared, its channel gets closed and its ticker stopped. -/
theorem c8_clearInterval_active_witness :
    (clearInterval (str "b") activeState).chans[0]? = some true ∧
    ∃ t, (clearInterval (str "b") activeState).tickers[0]? = some t ∧ t.stopped = true :=
  ⟨(c8_clearInterval_active activeState (str "b") ⟨some 0, 0⟩ ⟨_, rfl⟩ (by decide)).2.2.2.1,
   (c8_clearInterval_active activeState (str "b") ⟨some 0, 0⟩ ⟨_, rfl⟩ (by decide)).2.2.2.2.1
     0 rfl⟩

/-- Claim C9: `clearTimeout` for an id without a record in the timeout map and
`clearInterval` for an id without a record in the interval map return the state
as it was, whatever the other map holds. -/
theorem c9_clear_absent_noop (s : State) (id : GoString) :
    (s.timers id = none → clearTimeout id s = s) ∧
    (s.intervals id = none → clearInterval id s = s) :=
  ⟨clearTimeout_absent id s, clearInterval_absent id s⟩

/-- Witness of `c9_clear_absent_noop`: the id `ghost` in `scheduledState`. -/
theorem c9_clear_absent_noop_witness :
    clearTimeout (str "ghost") scheduledState = scheduledState ∧
    clearInterval (str "ghost") scheduledState = scheduledState :=
  ⟨(c9_clear_absent_noop scheduledState (str "ghost")).1 (by decide),
   (c9_clear_absent_noop scheduledState (str "ghost")).2 (by decide)⟩

/-- Claim C10 as stated fails: `longLine`, a line of 65536 blanks, is malformed
(it has no field), and the loop does not go on with the next line: the scanner
fails on it, `main` returns, and the line `setTimeout a 10n` that follows, which
the loop would accept, is never read.  After a line of 65535 blanks the loop
does go on and the line that follows is accepted. -/
theorem c10_long_line_ends_loop :
    Malformed longLine ∧ longLine.length = 65536 ∧
    (main [longLine, str "setTimeout a 10n"] init).exited = true ∧
    (main [longLine, str "setTimeout a 10n"] init).timers (str "a") = none ∧
    (main [str "setTimeout a 10n"] init).timers (str "a") = some ⟨0, 0⟩ ∧
    (main [List.replicate 65535 (chr ' '), str "setTimeout a 10n"] init).timers (str "a")
      = some ⟨0, 0⟩ := by
  have hlong : MaxScanTokenSize ≤ longLine.length := by
    unfold longLine
    rw [List.length_replicate]
  have hm : main [longLine, str "setTimeout a 10n"] init = { init with exited := true } := by
    rw [main_cons _ _ init rfl rfl, readLine_of_long _ _ hlong]
    exact main_of_stopped _ _ (Or.inr rfl)
  have hlen : (List.replicate 65535 (chr ' ')).length < MaxScanTokenSize := by
    rw [List.length_replicate]; decide
  have hshort : readLine (List.replicate 65535 (chr ' ')) init = init := by
    rw [readLine_of_short _ _ hlen, dropCR_blanks]
    exact mainStep_of_malformed _ _ (malformed_blanks _)
  have hsize : longLine.length = 65536 := by
    unfold longLine
    rw [List.length_replicate]
    rfl
  refine ⟨malformed_longLine, hsize, ?_, ?_, ?_, ?_⟩
  · rw [hm]
  · rw [hm]; rfl
  · decide
  · rw [main_of_noop _ _ _ hshort]
    decide

/-- Claim C10, amended: the step of the command loop for a malformed line
returns the state as it was (both maps, no output); when the line as it stands
on stdin is shorter than 65536 bytes the loop goes on with the lines that
follow; a line of 65536 bytes or more is not handed to the step at all: the
scanner fails, and `main` returns with both maps and the output as they were. -/
theorem c10_malformed_line_noop (line raw : GoString) (rest : List GoString) (s : State) :
    (Malformed line → mainStep line s = s) ∧
    (raw.length < MaxScanTokenSize → Malformed (dropCR raw) →
      readLine raw s = s ∧ main (raw :: rest) s = main rest s) ∧
    (MaxScanTokenSize ≤ raw.length → s.panicked = false → s.exited = false →
      main (raw :: rest) s = { s with exited := true }) := by
  refine ⟨mainStep_of_malformed line s, ?_, ?_⟩
  · intro hshort hmal
    have h1 : readLine raw s = s := by
      rw [readLine_of_short raw s hshort]
      exact mainStep_of_malformed _ s hmal
    exact ⟨h1, main_of_noop raw rest s h1⟩
  · intro hlong hp he
    rw [main_cons raw rest s hp he, readLine_of_long raw s hlong]
    exact main_of_stopped _ _ (Or.inr rfl)

/-- Witness of `c10_malformed_line_noop`: the three lines the specification
names, and the line `longLine`. -/
theorem c10_malformed_line_noop_witness :
    (main [str "setTimeout", str "clearTimeout a"] scheduledState
        = main [str "clearTimeout a"] scheduledState ∧
      main [str "bogus x y", str "clearTimeout a"] scheduledState
        = main [str "clearTimeout a"] scheduledState ∧
      main [str "setTimeout a 5x", str "clearTimeout a"] scheduledState
        = main [str "clearTimeout a"] scheduledState) ∧
    mainStep (str "setTimeout a 5x") scheduledState = scheduledState ∧
    main [longLine, str "clearTimeout a"] scheduledState
      = { scheduledState with exited := true } :=
  ⟨⟨((c10_malformed_line_noop [] (str "setTimeout") [str "clearTimeout a"] scheduledState).2.1
        (by decide) (by decide)).2,
    ((c10_malformed_line_noop [] (str "bogus x y") [str "clearTimeout a"] scheduledState).2.1
        (by decide) (by decide)).2,
    ((c10_malformed_line_noop [] (str "setTimeout a 5x") [str "clearTimeout a"]
        scheduledState).2.1 (by decide) (by decide)).2⟩,
   (c10_malformed_line_noop (str "setTimeout a 5x") [] [] scheduledState).1 (by decide),
   (c10_malformed_line_noop [] longLine [str "clearTimeout a"] scheduledState).2.2
     (by simp [longLine]) (by decide) (by decide)⟩

end NanoTimer
